import Mathlib

/-!
# Direct-contract: client export pipeline (`src/index.js`)

A shallow embedding of the two functions that carry the behaviour of the
program, `main` (pagination, status enrichment, accumulation) and
`writeToGoogleSheet` (capacity check, header placement, batched append with
retry), followed by theorems about them.

Remote collaborators are oracles: a value of `Api` answers the two HTTP
helpers `clientsList` and `clientsStatus`, a value of `Dest` answers the
calls made to the spreadsheet service. Every call the writer makes that
changes the destination is recorded in a trace of `Event`s, together with
the waits and the values taken by the write cursor `startRow`. The two reads
of the destination and the calls to the progress bar are not recorded.
Registration and login come before the code modelled here and do not take
part in it.
-/

set_option autoImplicit false

namespace DirectContract

/-! ## Data model -/

/-- JavaScript values that occur as record fields and sheet cells. Numbers
are integers here; floating point values are outside the model. -/
inductive Value where
  | undefined
  | null
  | bool (b : Bool)
  | num (n : Int)
  | str (s : String)
  deriving DecidableEq, Repr

/-- JavaScript truthiness: `undefined`, `null`, `false`, `0` and `""` are
falsy, every other value is truthy. -/
def Value.truthy : Value → Bool
  | .undefined => false
  | .null => false
  | .bool b => b
  | .num n => n != 0
  | .str s => s != ""

/-- The JavaScript expression `a || b`. -/
def Value.or (a b : Value) : Value :=
  if a.truthy then a else b

/-- One element of a page returned by `GET clients`. -/
structure Client where
  id : Value
  firstName : Value
  lastName : Value
  gender : Value
  address : Value
  city : Value
  phone : Value
  email : Value
  deriving DecidableEq, Repr

/-- One element of the answer of `POST clients`. -/
structure Status where
  id : Value
  status : Value
  deriving DecidableEq, Repr

/-- The object pushed to `dataToWrite` (lines 211-221). -/
structure ExportRow where
  id : Value
  firstName : Value
  lastName : Value
  gender : Value
  address : Value
  city : Value
  phone : Value
  email : Value
  status : Value
  deriving DecidableEq, Repr

/-- The eight fields of an export row that come from the client record. -/
def ExportRow.client (r : ExportRow) : Client :=
  { id := r.id, firstName := r.firstName, lastName := r.lastName, gender := r.gender,
    address := r.address, city := r.city, phone := r.phone, email := r.email }

/-! ## `main`: pagination and merge -/

/-- A JavaScript `Map` as its entries in insertion order. -/
abbrev JsMap := List (Value × Value)

/-- The method `Map.prototype.set`: an existing key keeps its position and
takes the new value, a new key is appended. -/
def JsMap.set : JsMap → Value → Value → JsMap
  | [], k, v => [(k, v)]
  | (k', v') :: m, k, v => if k' = k then (k', v) :: m else (k', v') :: JsMap.set m k v

/-- The method `Map.prototype.get`: `undefined` for a key that is absent. -/
def JsMap.get : JsMap → Value → Value
  | [], _ => .undefined
  | (k', v') :: m, k => if k' = k then v' else JsMap.get m k

/-- The constructor `new Map(entries)`: the entries are set one after the other. -/
def JsMap.ofEntries (entries : List (Value × Value)) : JsMap :=
  entries.foldl (fun m e => JsMap.set m e.1 e.2) []

/-- Line 208: `new Map(statuses.map(status => [status.id, status.status]))`. -/
def statusMap (statuses : List Status) : JsMap :=
  JsMap.ofEntries (statuses.map (fun status => (status.id, status.status)))

/-- Lines 211-221: the object built for one client. -/
def mergeClient (statusMap : JsMap) (client : Client) : ExportRow :=
  { id := client.id
    firstName := client.firstName
    lastName := client.lastName
    gender := client.gender
    address := client.address
    city := client.city
    phone := client.phone
    email := client.email
    status := (statusMap.get client.id).or (.str "Unknown") }

/-- Lines 208-222: the rows that `clients.forEach` pushes for one page. -/
def mergePage (clients : List Client) (statuses : List Status) : List ExportRow :=
  clients.map (mergeClient (statusMap statuses))

/-- What the helper `clientsList` of lines 40-53 returns, as far as line 202
and line 206 tell the answers apart. `absent` is the `undefined` returned
after the `catch` of line 50 (the request or the parsing of its body threw),
or a falsy body such as `null`. `page clients` is a body that is an array.
`other` is a truthy body that is not an array, such as the JSON object of an
HTTP error answer, which `fetch` does not throw on: its `length` is not 0 and
it has no method `map`. -/
inductive Fetched where
  | absent
  | page (clients : List Client)
  | other
  deriving DecidableEq, Repr

/-- The source service as seen through the two helpers. `clientsList limit
offset` is what the helper of lines 40-53 returns. `clientsStatus offset
userIds` is what the helper of lines 55-69 returns for the page fetched at
`offset`: `some statuses` is a body that is an array, `none` is every answer
on which `statuses.map` of line 208 throws, the `undefined` of the `catch`
branch of line 66 as well as a body that is not an array. -/
structure Api where
  clientsList : Nat → Nat → Fetched
  clientsStatus : Nat → List Value → Option (List Status)

/-- How the `try` block of `main` ends: the writer is invoked with the
accumulated rows (line 224), or an exception reaches the `catch` of line 225
and the writer is not invoked. -/
inductive Outcome where
  | writer (dataToWrite : List ExportRow)
  | caught
  deriving DecidableEq, Repr

/-- A finished run of `main`: the offsets passed to `clientsList`, in call
order, and the way the run ended. -/
structure MainRun where
  listCalls : List Nat
  outcome : Outcome
  deriving DecidableEq, Repr

/-- Line 198. -/
def limit : Nat := 1000

/-- The loop `while (true)` of lines 200-223, started with the given offset
and accumulated rows; `calls` are the offsets requested so far. The loop has
no bound of its own, so the model takes a number of iterations it may run and
returns `none` when that number is used up. An absent or empty page ends
the loop at line 203 and the writer is invoked. A truthy answer that is not
an array passes line 202 and makes `clients.map` of line 206 throw; a failed
status lookup makes `statuses.map` of line 208 throw; both exceptions reach
the `catch` of line 225. -/
def mainLoop (api : Api) : Nat → Nat → List ExportRow → List Nat → Option MainRun
  | 0, _, _, _ => none
  | fuel + 1, offset, dataToWrite, calls =>
    match api.clientsList limit offset with
    | .absent => some ⟨calls ++ [offset], .writer dataToWrite⟩
    | .page [] => some ⟨calls ++ [offset], .writer dataToWrite⟩
    | .other => some ⟨calls ++ [offset], .caught⟩
    | .page (c :: cs) =>
      let clients := c :: cs
      let userIds := clients.map (fun item => item.id)
      match api.clientsStatus offset userIds with
      | none => some ⟨calls ++ [offset], .caught⟩
      | some statuses =>
        mainLoop api fuel (offset + limit) (dataToWrite ++ mergePage clients statuses)
          (calls ++ [offset])

/-- The function `main` from line 197 on: `offset = 0`, `dataToWrite = []`. -/
def main (api : Api) (fuel : Nat) : Option MainRun :=
  mainLoop api fuel 0 [] []

/-! ## `writeToGoogleSheet`: the destination and the trace -/

/-- Line 80. -/
def header : List Value :=
  [.str "ID", .str "First Name", .str "Last Name", .str "Gender", .str "Address",
   .str "City", .str "Phone", .str "Email", .str "Status"]

/-- Line 135. -/
def BATCH_SIZE : Nat := 1000

/-- Line 136. -/
def RETRY_DELAY : Nat := 5000

/-- Lines 140-150: the array of cells built for one row of a batch. -/
def ExportRow.toCells (client : ExportRow) : List Value :=
  [client.id, client.firstName, client.lastName, client.gender, client.address,
   client.city, client.phone, client.email, client.status]

/-- An error with which a call to the spreadsheet service rejects; `code` is
the property that line 165 compares with `429`. -/
structure ApiError where
  code : Value
  deriving DecidableEq, Repr

/-- What `writeToGoogleSheet` can throw: an error of the service, passed on
unchanged, or the `Error` built on line 176, kept as the two numbers that are
interpolated into its message. -/
inductive Thrown where
  | api (error : ApiError)
  | unwritten (first last : Nat)
  deriving DecidableEq, Repr

/-- The message of the `Error` of line 176. -/
def unwrittenMessage (first last : Nat) : String :=
  "Не удалось записать данные для строк " ++ toString first ++ "–" ++ toString last

/-- The spreadsheet service as seen by one run of the writer. `sheetInfo` is
the answer to `spreadsheets.get` (the `rowCount` of the sheet), `getRows` the
answer to `values.get` (the populated rows, `[]` when there are none),
`appendDimension n` the answer to the request that adds `n` rows,
`headerUpdate` the answer to the write of the header, and `batchUpdate k a`
the answer to attempt number `a` (from 0) of the write of batch number `k`
(from 0). For a write, `none` is success and `some e` a rejection with `e`. -/
structure Dest where
  sheetInfo : Except ApiError Nat
  appendDimension : Nat → Option ApiError
  getRows : Except ApiError (List (List Value))
  headerUpdate : Option ApiError
  batchUpdate : Nat → Nat → Option ApiError

/-- What a run of the writer does, in order: a request that adds rows, a
`values.update` of the range that starts at `A<row>`, a call of `delay`, and
(not a call, recorded to follow the cursor) a value given to `startRow`. -/
inductive Event where
  | appendDimension (length : Nat) (answer : Option ApiError)
  | update (row : Nat) (values : List (List Value)) (answer : Option ApiError)
  | delay (ms : Nat)
  | cursor (startRow : Nat)
  deriving DecidableEq, Repr

/-- A run of the writer: its trace and whether it returned or threw. -/
structure Run where
  trace : List Event
  result : Except Thrown Unit

/-- The run that performs `events` and then continues as `rest`. -/
def Run.after (events : List Event) (rest : Run) : Run :=
  ⟨events ++ rest.trace, rest.result⟩

/-- The loop `while (!success && attempt < 5)` of lines 153-174 for one batch,
entered with `success = false` and the given `attempt`. It returns the events
and either the final value of `success` or the error rethrown on line 171.
`answer a` is the answer of the service to attempt number `a`. -/
def retryLoop (answer : Nat → Option ApiError) (startRow : Nat)
    (batchData : List (List Value)) (attempt : Nat) :
    List Event × Except ApiError Bool :=
  if attempt < 5 then
    match answer attempt with
    | none => ([.update startRow batchData none], .ok true)
    | some error =>
      if error.code = .num 429 then
        let rest := retryLoop answer startRow batchData (attempt + 1)
        (.update startRow batchData (some error) :: .delay RETRY_DELAY :: rest.1, rest.2)
      else
        ([.update startRow batchData (some error)], .error error)
  else
    ([], .ok false)
termination_by 5 - attempt

/-- The loop `for (let i = 0; i < dataToWrite.length; i += BATCH_SIZE)` of
lines 139-180, entered with the given `i` and `startRow`. The batch that
starts at `i` is batch number `i / BATCH_SIZE`. -/
def batchLoop (d : Dest) (dataToWrite : List ExportRow) (i startRow : Nat) : Run :=
  if i < dataToWrite.length then
    let batchData := ((dataToWrite.drop i).take BATCH_SIZE).map ExportRow.toCells
    match retryLoop (d.batchUpdate (i / BATCH_SIZE)) startRow batchData 0 with
    | (events, .error error) => ⟨events, .error (.api error)⟩
    | (events, .ok false) => ⟨events, .error (.unwritten startRow (startRow + BATCH_SIZE))⟩
    | (events, .ok true) =>
      Run.after (events ++ [.cursor (startRow + BATCH_SIZE)])
        (batchLoop d dataToWrite (i + BATCH_SIZE) (startRow + BATCH_SIZE))
  else
    ⟨[], .ok ()⟩
termination_by dataToWrite.length - i
decreasing_by simp only [BATCH_SIZE]; omega

/-- Lines 116-180: the read of the populated rows, the header, the batches. -/
def placeHeaderAndWrite (d : Dest) (dataToWrite : List ExportRow) : Run :=
  match d.getRows with
  | .error error => ⟨[], .error (.api error)⟩
  | .ok rows =>
    let startRow := rows.length + 1
    if rows.length = 0 then
      match d.headerUpdate with
      | some error => ⟨[.cursor startRow, .update 1 [header] (some error)], .error (.api error)⟩
      | none =>
        Run.after [.cursor startRow, .update 1 [header] none, .cursor 2]
          (batchLoop d dataToWrite 0 2)
    else
      Run.after [.cursor startRow] (batchLoop d dataToWrite 0 startRow)

/-- The function `writeToGoogleSheet` from line 89 on. The sheet named on
line 79 is taken to exist in the answer to `spreadsheets.get`. -/
def writeToGoogleSheet (d : Dest) (dataToWrite : List ExportRow) : Run :=
  match d.sheetInfo with
  | .error error => ⟨[], .error (.api error)⟩
  | .ok currentRows =>
    let rowsNeeded := dataToWrite.length + 1
    if rowsNeeded > currentRows then
      let rowsToAdd := rowsNeeded - currentRows
      match d.appendDimension rowsToAdd with
      | some error => ⟨[.appendDimension rowsToAdd (some error)], .error (.api error)⟩
      | none =>
        Run.after [.appendDimension rowsToAdd none] (placeHeaderAndWrite d dataToWrite)
    else
      placeHeaderAndWrite d dataToWrite

/-! ## The destination as a state -/

/-- A sheet: the number of rows of its grid and its populated rows. -/
structure Sheet where
  rowCount : Nat
  values : List (List Value)
  deriving DecidableEq, Repr

/-- The rows after a block is written from position `k` (0-based) on; rows
between the old end and `k` are empty. -/
def writeBlock (values : List (List Value)) (k : Nat) (block : List (List Value)) :
    List (List Value) :=
  values.take k ++ List.replicate (k - values.length) [] ++ block ++ values.drop (k + block.length)

/-- The effect of one event on the sheet: only the requests that the service
accepted change it. -/
def Sheet.step (s : Sheet) : Event → Sheet
  | .appendDimension length none => { s with rowCount := s.rowCount + length }
  | .update row values none => { s with values := writeBlock s.values (row - 1) values }
  | _ => s

/-- The sheet after a trace. -/
def Sheet.apply (s : Sheet) (trace : List Event) : Sheet :=
  trace.foldl Sheet.step s

/-- The destination `d` answers its two reads from the sheet `s`. -/
def Dest.reads (d : Dest) (s : Sheet) : Prop :=
  d.sheetInfo = .ok s.rowCount ∧ d.getRows = .ok s.values

/-- The attempts of `values.update` of a trace, in order: target row, values
and answer. -/
def updates : List Event → List (Nat × List (List Value) × Option ApiError)
  | [] => []
  | .update row values answer :: t => (row, values, answer) :: updates t
  | _ :: t => updates t

/-- The writes of a trace that the service accepted: target row and values. -/
def committed : List Event → List (Nat × List (List Value))
  | [] => []
  | .update row values none :: t => (row, values) :: committed t
  | _ :: t => committed t

/-- The values taken by `startRow` along a trace. -/
def cursors : List Event → List Nat
  | [] => []
  | .cursor startRow :: t => startRow :: cursors t
  | _ :: t => cursors t

/-! ## Quantities and predicates used in the statements -/

/-- The number of non-empty pages of a source of `n` records: `⌈n / limit⌉`. -/
def pageCount (n : Nat) : Nat := (n + limit - 1) / limit

/-- The rows accumulated from the pages `0 .. k-1`. -/
def pagesRows (pages : Nat → List Client) (stats : Nat → List Status) (k : Nat) :
    List ExportRow :=
  ((List.range k).map (fun j => mergePage (pages j) (stats j))).flatten

/-- The offsets of the first `k` calls to `clientsList`. -/
def pageOffsets (k : Nat) : List Nat :=
  (List.range k).map (fun j => limit * j)

/-- The first `k` pages are fetched as non-empty arrays, `pages j` at the
offset `limit * j`, and their status lookups are answered, with `stats j`. -/
def PagesFetched (api : Api) (pages : Nat → List Client) (stats : Nat → List Status)
    (k : Nat) : Prop :=
  ∀ j, j < k → pages j ≠ [] ∧ api.clientsList limit (limit * j) = .page (pages j) ∧
    api.clientsStatus (limit * j) ((pages j).map (fun item => item.id)) = some (stats j)

/-- The array that the source returns for page `j`, `[]` when it returns none. -/
def apiPage (api : Api) (j : Nat) : List Client :=
  match api.clientsList limit (limit * j) with
  | .page clients => clients
  | _ => []

/-- The statuses that the source returns for page `j`, `[]` when the lookup
fails. -/
def apiStats (api : Api) (j : Nat) : List Status :=
  match api.clientsStatus (limit * j) ((apiPage api j).map (fun item => item.id)) with
  | some statuses => statuses
  | none => []

/-- Batch number `k` of the data: the slice of line 140, mapped to cells. -/
def batch (dataToWrite : List ExportRow) (k : Nat) : List (List Value) :=
  ((dataToWrite.drop (BATCH_SIZE * k)).take BATCH_SIZE).map ExportRow.toCells

/-- The number of batches of `n` rows: `⌈n / BATCH_SIZE⌉`. -/
def batchCount (n : Nat) : Nat := (n + BATCH_SIZE - 1) / BATCH_SIZE

/-- The events of `m` attempts at a write, each followed by the wait. -/
def limitedAttempts (answer : Nat → Option ApiError) (startRow : Nat)
    (batchData : List (List Value)) (m : Nat) : List Event :=
  ((List.range m).map (fun a =>
    [Event.update startRow batchData (answer a), Event.delay RETRY_DELAY])).flatten

/-- The answers to the attempts `0 .. m-1` all carry the code 429. -/
def RateLimited (answer : Nat → Option ApiError) (m : Nat) : Prop :=
  ∀ a, a < m → ∃ error, answer a = some error ∧ error.code = .num 429

/-- Batch `k` is rate-limited `a` times, with `a < 5`, and then accepted. -/
def CommitsAfter (d : Dest) (k a : Nat) : Prop :=
  a < 5 ∧ RateLimited (d.batchUpdate k) a ∧ d.batchUpdate k a = none

/-- The events of the first `k` batches when batch `j` is rate-limited
`tries j` times and then accepted: the attempts, the accepted write at the
cursor, the new value of the cursor. -/
def commitEvents (d : Dest) (dataToWrite : List ExportRow) (tries : Nat → Nat)
    (start k : Nat) : List Event :=
  ((List.range k).map (fun j =>
    limitedAttempts (d.batchUpdate j) (start + BATCH_SIZE * j) (batch dataToWrite j) (tries j) ++
      [Event.update (start + BATCH_SIZE * j) (batch dataToWrite j) none,
       Event.cursor (start + BATCH_SIZE * (j + 1))])).flatten

/-- The initial value of the write cursor for the populated rows read. -/
def initialCursor (rows : List (List Value)) : Nat :=
  if rows.length = 0 then 2 else rows.length + 1

/-- The events before the batch loop when every request is accepted. -/
def setupEvents (currentRows : Nat) (rows : List (List Value)) (n : Nat) : List Event :=
  (if n + 1 > currentRows then [Event.appendDimension (n + 1 - currentRows) none] else []) ++
  (if rows.length = 0 then
    [Event.cursor (rows.length + 1), Event.update 1 [header] none, Event.cursor 2]
   else [Event.cursor (rows.length + 1)])

/-- The writes of the header that a run with accepted set-up commits. -/
def headerCommit (rows : List (List Value)) : List (Nat × List (List Value)) :=
  if rows.length = 0 then [(1, [header])] else []

/-- The events are rejected attempts at the given write and waits. -/
def Quiet (startRow : Nat) (batchData : List (List Value)) (events : List Event) : Prop :=
  ∀ e, e ∈ events →
    (∃ error, e = Event.update startRow batchData (some error)) ∨ e = Event.delay RETRY_DELAY

/-- The property `P row values next` holds at every accepted write of the
trace, `next` being the events that follow it. -/
def EachCommit (P : Nat → List (List Value) → List Event → Prop) : List Event → Prop
  | [] => True
  | .update row values none :: t => P row values t ∧ EachCommit P t
  | _ :: t => EachCommit P t

/-- What holds at an accepted write of a batch when the batch loop was
entered with the cursor `start`. The write is that of some batch `k`: it
targets the row `start + 1000 * k` and carries the rows
`data[1000 * k .. 1000 * k + 1000)` mapped to their cells. The event that
follows it gives the cursor the value `row + 1000`. The batch holds
`min 1000 (n - 1000 * k)` rows, at least one. When the batch is full (the data
reach `1000 * (k + 1)` rows) the new cursor is the last committed row,
`row + values.length - 1`, plus 1; when the data end before, in the last
batch, the new cursor exceeds that by the rows missing from the batch. -/
def BatchCommitted (dataToWrite : List ExportRow) (start row : Nat)
    (values : List (List Value)) (next : List Event) : Prop :=
  ∃ k, 1000 * k < dataToWrite.length ∧ row = start + 1000 * k ∧
    values = ((dataToWrite.drop (1000 * k)).take 1000).map ExportRow.toCells ∧
    (∃ rest, next = Event.cursor (row + 1000) :: rest) ∧
    1 ≤ values.length ∧ values.length = min 1000 (dataToWrite.length - 1000 * k) ∧
    (1000 * (k + 1) ≤ dataToWrite.length → row + 1000 = (row + values.length - 1) + 1) ∧
    (dataToWrite.length < 1000 * (k + 1) →
      row + 1000 = (row + values.length - 1) + 1 + (1000 * (k + 1) - dataToWrite.length))

/-- What holds at an accepted write of a run of the writer: it is the write
of the header at row 1, followed by the cursor taking the value 2, or the
write of a batch. -/
def WriteCommitted (dataToWrite : List ExportRow) (start row : Nat)
    (values : List (List Value)) (next : List Event) : Prop :=
  (row = 1 ∧ values = [header] ∧ ∃ rest, next = Event.cursor 2 :: rest) ∨
  BatchCommitted dataToWrite start row values next

/-- The cursor with which a run of the writer enters the batch loop, when
its read of the populated rows is answered. -/
def firstCursor (d : Dest) : Nat :=
  match d.getRows with
  | .ok rows => if rows.length = 0 then 2 else rows.length + 1
  | .error _ => 0

/-- The number of attempts of a trace that write the header at row 1. -/
def headerWrites (trace : List Event) : Nat :=
  ((updates trace).filter (fun u => decide (u.1 = 1 ∧ u.2.1 = [header]))).length

/-! ## Concrete sources and destinations -/

/-- A client record used in the concrete runs below. -/
def annClient : Client :=
  ⟨.num 1, .str "Ann", .str "Lee", .str "f", .str "1 Main St", .str "Oslo", .str "555",
    .str "ann@example.org"⟩

/-- A source that serves one record at offset 0 and whose second request
throws, so that `clientsList` returns `undefined`. -/
def failingFetchApi : Api where
  clientsList := fun _ offset => if offset = 0 then .page [annClient] else .absent
  clientsStatus := fun _ _ => some [⟨.num 1, .str "active"⟩]

/-- A source that serves one record at offset 0 and answers the second
request with an HTTP error whose body is a JSON object. -/
def errorBodyApi : Api where
  clientsList := fun _ offset => if offset = 0 then .page [annClient] else .other
  clientsStatus := fun _ _ => some [⟨.num 1, .str "active"⟩]

/-- A source that serves one record per page and whose status lookup
succeeds for the first page and fails for the second. -/
def failingStatusApi : Api where
  clientsList := fun _ _ => .page [annClient]
  clientsStatus := fun offset _ => if offset = 0 then some [⟨.num 1, .str "active"⟩] else none

/-- An export row used in the concrete runs below. -/
def sampleRow : ExportRow :=
  ⟨.num 1, .str "Ann", .str "Lee", .str "f", .str "1 Main St", .str "Oslo", .str "555",
    .str "ann@example.org", .str "active"⟩

/-- A sheet of 1000 grid rows without content, every set-up request accepted,
the writes of the batches answered by `answer`. -/
def emptySheetDest (answer : Nat → Nat → Option ApiError) : Dest :=
  ⟨.ok 1000, fun _ => none, .ok [], none, answer⟩

/-- A sheet of 3 grid rows, all populated (the header and two rows of data). -/
def fullSheet : Sheet :=
  ⟨3, [header, sampleRow.toCells, sampleRow.toCells]⟩

/-- The destination that answers its reads from `fullSheet` and accepts every
request. -/
def fullSheetDest : Dest :=
  ⟨.ok fullSheet.rowCount, fun _ => none, .ok fullSheet.values, none, fun _ _ => none⟩

/-- A client record used in the concrete runs below. -/
def sampleClient : Client :=
  ⟨.num 7, .str "Bo", .str "Ek", .str "m", .str "2 Side St", .str "Bergen", .str "777",
    .str "bo@example.org"⟩

/-- A source that serves the slices of `src` and answers every status lookup
with the statuses given. -/
def sliceApi (src : List Client) (statuses : List Status) : Api where
  clientsList := fun limit offset => .page ((src.drop offset).take limit)
  clientsStatus := fun _ _ => some statuses

/-- An empty sheet whose service rate-limits the first two attempts at every
batch and accepts the third. -/
def retryingDest : Dest :=
  emptySheetDest (fun _ a => if a < 2 then some ⟨.num 429⟩ else none)

/-- An empty sheet whose service accepts the first batch and rate-limits
every attempt at the later ones. -/
def stallingDest : Dest :=
  emptySheetDest (fun k _ => if k = 0 then none else some ⟨.num 429⟩)

/-- An empty sheet whose service rejects every write of a batch with the
code 500. -/
def rejectingDest : Dest :=
  emptySheetDest (fun _ _ => some ⟨.num 500⟩)

/-- The destination of a second run, after `sampleRow` was written to an
empty sheet: it answers its reads from the resulting sheet. -/
def secondRunDest : Dest :=
  ⟨.ok ((Sheet.mk 1000 []).apply
      (writeToGoogleSheet (emptySheetDest (fun _ _ => none)) [sampleRow]).trace).rowCount,
    fun _ => none,
    .ok ((Sheet.mk 1000 []).apply
      (writeToGoogleSheet (emptySheetDest (fun _ _ => none)) [sampleRow]).trace).values,
    none, fun _ _ => none⟩

/-! ## Lemmas on the status map -/

theorem JsMap.get_set (m : JsMap) (k v k' : Value) :
    JsMap.get (JsMap.set m k v) k' = if k = k' then v else JsMap.get m k' := by
  induction m with
  | nil => simp [JsMap.set, JsMap.get]
  | cons e m ih =>
    obtain ⟨a, b⟩ := e
    by_cases hak : a = k
    · subst hak
      by_cases hk : a = k' <;> simp [JsMap.set, JsMap.get, hk]
    · by_cases hk : a = k'
      · subst hk
        simp [JsMap.set, JsMap.get, hak, Ne.symm hak]
      · simp [JsMap.set, JsMap.get, hak, hk, ih]

theorem JsMap.get_foldl_set (entries : List (Value × Value)) (m : JsMap) (k : Value) :
    JsMap.get (entries.foldl (fun m e => JsMap.set m e.1 e.2) m) k =
      match entries.reverse.find? (fun e => e.1 = k) with
      | some e => e.2
      | none => JsMap.get m k := by
  induction entries generalizing m with
  | nil => simp
  | cons e entries ih =>
    rw [List.foldl_cons, ih, List.reverse_cons, List.find?_append]
    cases h : entries.reverse.find? (fun e => decide (e.1 = k)) with
    | some x => simp
    | none =>
      by_cases hk : e.1 = k <;> simp [JsMap.get_set, hk]

/-- The value the status map holds for an id is the status of the last
element of the answer that carries this id, `undefined` when there is none. -/
theorem statusMap_get (statuses : List Status) (k : Value) :
    (statusMap statuses).get k =
      match statuses.reverse.find? (fun s => s.id = k) with
      | some s => s.status
      | none => .undefined := by
  unfold statusMap JsMap.ofEntries
  rw [JsMap.get_foldl_set, ← List.map_reverse, List.find?_map]
  cases h : List.find? ((fun e : Value × Value => decide (e.1 = k)) ∘
      fun status : Status => (status.id, status.status)) statuses.reverse with
  | none =>
    have h' : List.find? (fun s : Status => decide (s.id = k)) statuses.reverse = none := h
    simp [h', JsMap.get]
  | some x =>
    have h' : List.find? (fun s : Status => decide (s.id = k)) statuses.reverse = some x := h
    simp [h']

theorem statusMap_get_missing (statuses : List Status) (k : Value)
    (h : k ∉ statuses.map (fun s => s.id)) : (statusMap statuses).get k = .undefined := by
  rw [statusMap_get]
  have : statuses.reverse.find? (fun s => s.id = k) = none := by
    rw [List.find?_eq_none]
    intro s hs
    simp only [List.mem_reverse] at hs
    simp only [decide_eq_true_eq]
    intro hk
    exact h (List.mem_map.mpr ⟨s, hs, hk⟩)
  rw [this]

theorem Value.or_unknown_cases (v : Value) :
    (v.or (.str "Unknown") = v ∧ v.truthy = true) ∨
    (v.or (.str "Unknown") = .str "Unknown" ∧ v.truthy = false) := by
  unfold Value.or
  cases h : v.truthy <;> simp

theorem mergePage_pages (clients : List Client) (statuses : List Status) :
    (mergePage clients statuses).map ExportRow.client = clients := by
  unfold mergePage
  rw [List.map_map]
  conv_rhs => rw [← List.map_id clients]
  apply List.map_congr_left
  intro c _
  rfl

/-! ## The merge step of `main` -/

/-- Claim C6. For every page of client records and every status response, the
merge step produces exactly one export row per client record, in page order,
with the eight client fields unchanged; the status of a row is the value the
status map holds for the id of the record or the text "Unknown", it is the
status of an element of the response unless it is "Unknown", it is "Unknown"
when the id is missing from the response, and it is neither `undefined` nor
`null`. -/
theorem mergePage_complete (clients : List Client) (statuses : List Status) :
    (mergePage clients statuses).map ExportRow.client = clients ∧
    ∀ row ∈ mergePage clients statuses,
      (row.status = (statusMap statuses).get row.id ∨ row.status = .str "Unknown") ∧
      (row.status = .str "Unknown" ∨
        ∃ s ∈ statuses, s.id = row.id ∧ s.status = row.status) ∧
      (row.id ∉ statuses.map (fun s => s.id) → row.status = .str "Unknown") ∧
      row.status ≠ .undefined ∧ row.status ≠ .null := by
  constructor
  · exact mergePage_pages clients statuses
  · intro row hrow
    unfold mergePage at hrow
    obtain ⟨c, _, rfl⟩ := List.mem_map.mp hrow
    have hid : (mergeClient (statusMap statuses) c).id = c.id := rfl
    have hst : (mergeClient (statusMap statuses) c).status =
        ((statusMap statuses).get c.id).or (.str "Unknown") := rfl
    rw [hid, hst]
    rcases Value.or_unknown_cases ((statusMap statuses).get c.id) with ⟨h, ht⟩ | ⟨h, ht⟩
    · rw [h]
      refine ⟨Or.inl rfl, ?_, ?_, ?_, ?_⟩
      · right
        have hg := statusMap_get statuses c.id
        cases hf : statuses.reverse.find? (fun s => s.id = c.id) with
        | none =>
          rw [hf] at hg
          rw [hg] at ht
          simp [Value.truthy] at ht
        | some s =>
          rw [hf] at hg
          refine ⟨s, ?_, ?_, ?_⟩
          · exact List.mem_reverse.mp (List.mem_of_find?_eq_some hf)
          · simpa using List.find?_some hf
          · exact hg.symm
      · intro hmiss
        rw [statusMap_get_missing statuses c.id hmiss] at ht
        simp [Value.truthy] at ht
      · intro hu
        rw [hu] at ht
        simp [Value.truthy] at ht
      · intro hu
        rw [hu] at ht
        simp [Value.truthy] at ht
    · rw [h]
      exact ⟨Or.inr rfl, Or.inl rfl, fun _ => rfl, by simp, by simp⟩

/-! ## Pagination -/

theorem pageCount_spec (n : Nat) :
    n ≤ limit * pageCount n ∧ ∀ j, j < pageCount n → limit * j < n := by
  unfold pageCount limit
  constructor
  · omega
  · intro j hj
    omega

theorem mainLoop_served (src : List Client) (api : Api)
    (hlist : ∀ j, api.clientsList limit (limit * j) = .page ((src.drop (limit * j)).take limit))
    (hstat : ∀ offset ids, ∃ statuses, api.clientsStatus offset ids = some statuses) :
    ∀ (fuel j : Nat) (acc : List ExportRow) (calls : List Nat),
      j ≤ pageCount src.length → pageCount src.length - j + 1 ≤ fuel →
      acc.map ExportRow.client = src.take (limit * j) →
      ∃ data, mainLoop api fuel (limit * j) acc calls =
          some ⟨calls ++ (List.range' j (pageCount src.length + 1 - j)).map (fun i => limit * i),
            .writer data⟩ ∧
        data.map ExportRow.client = src := by
  intro fuel
  induction fuel with
  | zero => intro j acc calls _ hf; omega
  | succ fuel ih =>
    intro j acc calls hj hf hacc
    obtain ⟨hK, hlt⟩ := pageCount_spec src.length
    unfold mainLoop
    rw [hlist j]
    rcases Nat.lt_or_ge j (pageCount src.length) with hjk | hjk
    · have hpos : limit * j < src.length := hlt j hjk
      cases hpage : (src.drop (limit * j)).take limit with
      | nil =>
        exfalso
        have hl := congrArg List.length hpage
        simp only [List.length_take, List.length_drop, List.length_nil, limit] at hl
        simp only [limit] at hpos
        omega
      | cons c cs =>
        obtain ⟨statuses, hs⟩ := hstat (limit * j) ((c :: cs).map (fun item => item.id))
        simp only [hs]
        have hacc' : (acc ++ mergePage (c :: cs) statuses).map ExportRow.client =
            src.take (limit * (j + 1)) := by
          rw [List.map_append, hacc, (mergePage_pages (c :: cs) statuses), ← hpage,
            Nat.mul_add, Nat.mul_one, List.take_add]
        obtain ⟨data, hrun, hdata⟩ :=
          ih (j + 1) (acc ++ mergePage (c :: cs) statuses) (calls ++ [limit * j])
            (by omega) (by omega) hacc'
        refine ⟨data, ?_, hdata⟩
        have hoff : limit * j + limit = limit * (j + 1) := by rw [Nat.mul_add, Nat.mul_one]
        rw [hoff, hrun]
        have hr : pageCount src.length + 1 - j = (pageCount src.length + 1 - (j + 1)) + 1 := by
          omega
        rw [hr, List.range'_succ]
        simp
    · have hje : j = pageCount src.length := by omega
      have hpage : (src.drop (limit * j)).take limit = [] := by
        rw [List.drop_eq_nil_of_le (by rw [hje]; exact hK)]
        rfl
      rw [hpage]
      refine ⟨acc, ?_, ?_⟩
      · have hr : pageCount src.length + 1 - j = 1 := by omega
        rw [hr]
        rfl
      · rw [hacc, List.take_of_length_le (by rw [hje]; exact hK)]

/-- Claim C7. For every source of N records served as the consecutive slices
of at most `limit` records at the offsets 0, `limit`, 2·`limit`, ..., with every
status lookup answered, the loop of `main` ends after exactly ⌈N / limit⌉ + 1
calls to `clientsList`, made at these offsets in order, the last of which
returns the empty page, and the accumulated rows are exactly the N source
records in source order. Every bound on the number of iterations from
⌈N / limit⌉ + 1 on gives this result. -/
theorem main_pagination (src : List Client) (api : Api) (fuel : Nat)
    (hlist : ∀ j, api.clientsList limit (limit * j) = .page ((src.drop (limit * j)).take limit))
    (hstat : ∀ offset ids, ∃ statuses, api.clientsStatus offset ids = some statuses)
    (hfuel : pageCount src.length + 1 ≤ fuel) :
    ∃ data, main api fuel =
        some ⟨(List.range (pageCount src.length + 1)).map (fun i => limit * i), .writer data⟩ ∧
      ((List.range (pageCount src.length + 1)).map (fun i => limit * i)).length =
        (src.length + limit - 1) / limit + 1 ∧
      api.clientsList limit (limit * pageCount src.length) = .page [] ∧
      data.length = src.length ∧
      data.map ExportRow.client = src := by
  obtain ⟨data, hrun, hdata⟩ :=
    mainLoop_served src api hlist hstat fuel 0 [] [] (Nat.zero_le _) (by omega) (by simp)
  refine ⟨data, ?_, ?_, ?_, ?_, hdata⟩
  · unfold main
    have h0 : limit * 0 = 0 := rfl
    rw [h0] at hrun
    rw [hrun, List.range_eq_range']
    simp
  · simp [pageCount]
  · rw [hlist, List.drop_eq_nil_of_le (pageCount_spec src.length).1]
    rfl
  · rw [← hdata, List.length_map]

/-! ## Failures during pagination -/

theorem mainLoop_step (api : Api) (fuel offset : Nat) (acc : List ExportRow) (calls : List Nat)
    (clients : List Client) (statuses : List Status) (hne : clients ≠ [])
    (hl : api.clientsList limit offset = .page clients)
    (hs : api.clientsStatus offset (clients.map (fun item => item.id)) = some statuses) :
    mainLoop api (fuel + 1) offset acc calls =
      mainLoop api fuel (offset + limit) (acc ++ mergePage clients statuses)
        (calls ++ [offset]) := by
  cases clients with
  | nil => exact absurd rfl hne
  | cons c cs =>
    rw [mainLoop, hl]
    simp only [hs]

theorem pagesRows_succ (pages : Nat → List Client) (stats : Nat → List Status) (k : Nat) :
    pagesRows pages stats (k + 1) =
      pagesRows pages stats k ++ mergePage (pages k) (stats k) := by
  unfold pagesRows
  simp [List.range_succ]

theorem pageOffsets_succ (k : Nat) : pageOffsets (k + 1) = pageOffsets k ++ [limit * k] := by
  unfold pageOffsets
  simp [List.range_succ]

theorem main_after_pages (api : Api) (pages : Nat → List Client) (stats : Nat → List Status) :
    ∀ (k fuel : Nat), PagesFetched api pages stats k →
      main api (fuel + k) = mainLoop api fuel (limit * k) (pagesRows pages stats k)
        (pageOffsets k) := by
  intro k
  induction k with
  | zero => intro fuel _; rfl
  | succ k ih =>
    intro fuel hpre
    have h := ih (fuel + 1) (fun j hj => hpre j (Nat.lt_succ_of_lt hj))
    have hf : fuel + (k + 1) = fuel + 1 + k := by omega
    obtain ⟨hne, hl, hs⟩ := hpre k (Nat.lt_succ_self k)
    rw [hf, h, mainLoop_step api fuel (limit * k) _ _ (pages k) (stats k) hne hl hs]
    have hoff : limit * k + limit = limit * (k + 1) := by rw [Nat.mul_add, Nat.mul_one]
    rw [hoff, pagesRows_succ, pageOffsets_succ]

/-- A run of the loop that ends with the writer went through pages that were
all fetched as non-empty arrays with their status lookups answered, up to an
absent or empty page. -/
theorem mainLoop_writer_only (api : Api) :
    ∀ (fuel j : Nat) (calls : List Nat) (data : List ExportRow),
      PagesFetched api (apiPage api) (apiStats api) j →
      mainLoop api fuel (limit * j) (pagesRows (apiPage api) (apiStats api) j) (pageOffsets j) =
        some ⟨calls, .writer data⟩ →
      ∃ k, PagesFetched api (apiPage api) (apiStats api) k ∧
        (api.clientsList limit (limit * k) = .absent ∨
          api.clientsList limit (limit * k) = .page []) ∧
        data = pagesRows (apiPage api) (apiStats api) k ∧ calls = pageOffsets (k + 1) := by
  intro fuel
  induction fuel with
  | zero =>
    intro j calls data _ h
    simp [mainLoop] at h
  | succ fuel ih =>
    intro j calls data hpre h
    rw [mainLoop] at h
    cases hl : api.clientsList limit (limit * j) with
    | absent =>
      rw [hl] at h
      simp only [Option.some.injEq, MainRun.mk.injEq, Outcome.writer.injEq] at h
      exact ⟨j, hpre, Or.inl hl, h.2.symm, by rw [pageOffsets_succ]; exact h.1.symm⟩
    | other =>
      rw [hl] at h
      simp at h
    | page clients =>
      rw [hl] at h
      cases clients with
      | nil =>
        simp only [Option.some.injEq, MainRun.mk.injEq, Outcome.writer.injEq] at h
        exact ⟨j, hpre, Or.inr hl, h.2.symm, by rw [pageOffsets_succ]; exact h.1.symm⟩
      | cons c cs =>
        have hp : apiPage api j = c :: cs := by
          unfold apiPage
          rw [hl]
        cases hs : api.clientsStatus (limit * j) ((c :: cs).map (fun item => item.id)) with
        | none =>
          simp only [hs] at h
          simp at h
        | some statuses =>
          simp only [hs] at h
          have hst : apiStats api j = statuses := by
            unfold apiStats
            rw [hp, hs]
          have hpre' : PagesFetched api (apiPage api) (apiStats api) (j + 1) := by
            intro i hi
            rcases Nat.lt_succ_iff_lt_or_eq.mp hi with hlt | heq
            · exact hpre i hlt
            · subst heq
              rw [hp, hst]
              exact ⟨by simp, hl, hs⟩
          have hoff : limit * j + limit = limit * (j + 1) := by rw [Nat.mul_add, Nat.mul_one]
          rw [hoff, ← hp, ← hst, ← pagesRows_succ, ← pageOffsets_succ] at h
          exact ih (j + 1) calls data hpre' h

/-- Claim C3 as stated fails: the second page fetch fails (the request throws
and `clientsList` returns `undefined`), yet the writer is invoked, with the
row accumulated from the first page. -/
theorem main_failed_fetch_still_writes :
    failingFetchApi.clientsList limit 1000 = .absent ∧
    main failingFetchApi 2 =
      some ⟨[0, 1000], .writer [⟨.num 1, .str "Ann", .str "Lee", .str "f", .str "1 Main St",
        .str "Oslo", .str "555", .str "ann@example.org", .str "active"⟩]⟩ := by
  constructor
  · rfl
  · rfl

/-- Claim C3, amended. Let the first `k` pages be fetched as non-empty arrays
with their status lookups answered. If page `k` is fetched non-empty and its
status lookup fails, or if the fetch of page `k` is answered with a body that
is not an array, the run ends in the `catch` of `main` and the writer is not
invoked, so the rows of the earlier pages are not written. If the fetch of
page `k` throws, so that `clientsList` returns `undefined`, the loop ends as
on the empty page and the writer is invoked with the rows accumulated from
the pages before `k`. In every run, the writer is invoked only after pages
that were all fetched as non-empty arrays with their status lookups answered,
at an absent or empty page, and with exactly the rows of those pages. -/
theorem main_failure (api : Api) (pages : Nat → List Client) (stats : Nat → List Status)
    (k fuel : Nat) (hpre : PagesFetched api pages stats k) (hfuel : k + 1 ≤ fuel) :
    ((pages k ≠ [] ∧ api.clientsList limit (limit * k) = .page (pages k) ∧
        api.clientsStatus (limit * k) ((pages k).map (fun item => item.id)) = none) →
      main api fuel = some ⟨pageOffsets (k + 1), .caught⟩) ∧
    (api.clientsList limit (limit * k) = .other →
      main api fuel = some ⟨pageOffsets (k + 1), .caught⟩) ∧
    (api.clientsList limit (limit * k) = .absent →
      main api fuel = some ⟨pageOffsets (k + 1), .writer (pagesRows pages stats k)⟩) ∧
    (∀ calls data, main api fuel = some ⟨calls, .writer data⟩ →
      ∃ m, PagesFetched api (apiPage api) (apiStats api) m ∧
        (api.clientsList limit (limit * m) = .absent ∨
          api.clientsList limit (limit * m) = .page []) ∧
        data = pagesRows (apiPage api) (apiStats api) m ∧ calls = pageOffsets (m + 1)) := by
  refine ⟨?_, ?_, ?_, ?_⟩
  · rintro ⟨hne, hl, hs⟩
    obtain ⟨f, rfl⟩ : ∃ f, fuel = f + 1 + k := ⟨fuel - (k + 1), by omega⟩
    rw [main_after_pages api pages stats k (f + 1) hpre, pageOffsets_succ]
    cases hp : pages k with
    | nil => exact absurd hp hne
    | cons c cs =>
      rw [hp] at hl hs
      rw [mainLoop, hl]
      simp only [hs]
  · intro hl
    obtain ⟨f, rfl⟩ : ∃ f, fuel = f + 1 + k := ⟨fuel - (k + 1), by omega⟩
    rw [main_after_pages api pages stats k (f + 1) hpre, pageOffsets_succ, mainLoop, hl]
  · intro hl
    obtain ⟨f, rfl⟩ : ∃ f, fuel = f + 1 + k := ⟨fuel - (k + 1), by omega⟩
    rw [main_after_pages api pages stats k (f + 1) hpre, pageOffsets_succ, mainLoop, hl]
  · intro calls data h
    exact mainLoop_writer_only api fuel 0 calls data
      (fun j hj => absurd hj (Nat.not_lt_zero j)) h

/-- The amended claim C3 at three concrete sources, each with one row
accumulated from the first page: a failed status lookup on the second page
and an error body as the second page end in the `catch`, a second fetch that
throws ends with the writer invoked on the accumulated row. -/
theorem main_failure_witness :
    main failingStatusApi 2 = some ⟨pageOffsets 2, .caught⟩ ∧
    main errorBodyApi 2 = some ⟨pageOffsets 2, .caught⟩ ∧
    main failingFetchApi 2 =
      some ⟨pageOffsets 2, .writer (pagesRows (fun _ => [annClient])
        (fun _ => [⟨.num 1, .str "active"⟩]) 1)⟩ :=
  ⟨(main_failure failingStatusApi (fun _ => [annClient]) (fun _ => [⟨.num 1, .str "active"⟩])
      1 2
      (fun j hj => by
        have hj0 : j = 0 := by omega
        subst hj0
        exact ⟨by simp, rfl, rfl⟩)
      (Nat.le_refl 2)).1 ⟨by simp, rfl, rfl⟩,
   (main_failure errorBodyApi (fun _ => [annClient]) (fun _ => [⟨.num 1, .str "active"⟩])
      1 2
      (fun j hj => by
        have hj0 : j = 0 := by omega
        subst hj0
        exact ⟨by simp, rfl, rfl⟩)
      (Nat.le_refl 2)).2.1 rfl,
   (main_failure failingFetchApi (fun _ => [annClient]) (fun _ => [⟨.num 1, .str "active"⟩])
      1 2
      (fun j hj => by
        have hj0 : j = 0 := by omega
        subst hj0
        exact ⟨by simp, rfl, rfl⟩)
      (Nat.le_refl 2)).2.2.1 rfl⟩

/-! ## The retry loop -/

theorem retryLoop_exhausted (answer : Nat → Option ApiError) (startRow : Nat)
    (batchData : List (List Value)) (attempt : Nat) (h : 5 ≤ attempt) :
    retryLoop answer startRow batchData attempt = ([], .ok false) := by
  rw [retryLoop]
  simp [Nat.not_lt.mpr h]

theorem retryLoop_accepted (answer : Nat → Option ApiError) (startRow : Nat)
    (batchData : List (List Value)) (attempt : Nat) (h : attempt < 5)
    (ha : answer attempt = none) :
    retryLoop answer startRow batchData attempt =
      ([.update startRow batchData none], .ok true) := by
  rw [retryLoop]
  simp [h, ha]

theorem retryLoop_limited (answer : Nat → Option ApiError) (startRow : Nat)
    (batchData : List (List Value)) (attempt : Nat) (h : attempt < 5) (error : ApiError)
    (ha : answer attempt = some error) (hc : error.code = .num 429) :
    retryLoop answer startRow batchData attempt =
      (.update startRow batchData (some error) :: .delay RETRY_DELAY ::
        (retryLoop answer startRow batchData (attempt + 1)).1,
       (retryLoop answer startRow batchData (attempt + 1)).2) := by
  rw [retryLoop]
  simp [h, ha, hc]

theorem retryLoop_fatal (answer : Nat → Option ApiError) (startRow : Nat)
    (batchData : List (List Value)) (attempt : Nat) (h : attempt < 5) (error : ApiError)
    (ha : answer attempt = some error) (hc : error.code ≠ .num 429) :
    retryLoop answer startRow batchData attempt =
      ([.update startRow batchData (some error)], .error error) := by
  rw [retryLoop]
  simp [h, ha, hc]

theorem limitedAttempts_succ (answer : Nat → Option ApiError) (startRow : Nat)
    (batchData : List (List Value)) (m : Nat) :
    limitedAttempts answer startRow batchData (m + 1) =
      limitedAttempts answer startRow batchData m ++
        [.update startRow batchData (answer m), .delay RETRY_DELAY] := by
  unfold limitedAttempts
  simp [List.range_succ]

/-- After `m` rate-limited attempts the loop is at attempt `m`. -/
theorem retryLoop_after_limited (answer : Nat → Option ApiError) (startRow : Nat)
    (batchData : List (List Value)) :
    ∀ m, m ≤ 5 → RateLimited answer m →
      retryLoop answer startRow batchData 0 =
        (limitedAttempts answer startRow batchData m ++
          (retryLoop answer startRow batchData m).1,
         (retryLoop answer startRow batchData m).2) := by
  intro m
  induction m with
  | zero => intro _ _; simp [limitedAttempts]
  | succ m ih =>
    intro hm hl
    obtain ⟨error, he, hc⟩ := hl m (Nat.lt_succ_self m)
    rw [ih (by omega) (fun a ha => hl a (Nat.lt_succ_of_lt ha)),
      retryLoop_limited answer startRow batchData m (by omega) error he hc,
      limitedAttempts_succ, he]
    simp

/-! ## The batch loop -/

theorem batchCount_spec (n : Nat) :
    n ≤ BATCH_SIZE * batchCount n ∧ ∀ k, k < batchCount n ↔ BATCH_SIZE * k < n := by
  unfold batchCount BATCH_SIZE
  constructor
  · omega
  · intro k
    constructor <;> intro h <;> omega

theorem Run.after_nil (r : Run) : Run.after [] r = r := rfl

theorem Run.after_append (a b : List Event) (r : Run) :
    Run.after (a ++ b) r = Run.after a (Run.after b r) := by
  simp [Run.after]

theorem batchLoop_done (d : Dest) (dataToWrite : List ExportRow) (i startRow : Nat)
    (h : dataToWrite.length ≤ i) : batchLoop d dataToWrite i startRow = ⟨[], .ok ()⟩ := by
  rw [batchLoop]
  simp [Nat.not_lt.mpr h]

theorem batchLoop_eq (d : Dest) (dataToWrite : List ExportRow) (k startRow : Nat)
    (h : BATCH_SIZE * k < dataToWrite.length) :
    batchLoop d dataToWrite (BATCH_SIZE * k) startRow =
      match retryLoop (d.batchUpdate k) startRow (batch dataToWrite k) 0 with
      | (events, .error error) => ⟨events, .error (.api error)⟩
      | (events, .ok false) => ⟨events, .error (.unwritten startRow (startRow + BATCH_SIZE))⟩
      | (events, .ok true) =>
        Run.after (events ++ [.cursor (startRow + BATCH_SIZE)])
          (batchLoop d dataToWrite (BATCH_SIZE * (k + 1)) (startRow + BATCH_SIZE)) := by
  conv_lhs => rw [batchLoop]
  have hk : BATCH_SIZE * k / BATCH_SIZE = k := Nat.mul_div_cancel_left k (by decide)
  have hs : BATCH_SIZE * k + BATCH_SIZE = BATCH_SIZE * (k + 1) := by
    rw [Nat.mul_add, Nat.mul_one]
  simp only [h, if_true, hk, hs]
  rfl

theorem batchLoop_commit (d : Dest) (dataToWrite : List ExportRow) (k startRow a : Nat)
    (h : BATCH_SIZE * k < dataToWrite.length) (hc : CommitsAfter d k a) :
    batchLoop d dataToWrite (BATCH_SIZE * k) startRow =
      Run.after
        (limitedAttempts (d.batchUpdate k) startRow (batch dataToWrite k) a ++
          [.update startRow (batch dataToWrite k) none, .cursor (startRow + BATCH_SIZE)])
        (batchLoop d dataToWrite (BATCH_SIZE * (k + 1)) (startRow + BATCH_SIZE)) := by
  obtain ⟨ha, hl, hok⟩ := hc
  rw [batchLoop_eq d dataToWrite k startRow h,
    retryLoop_after_limited _ _ _ a (Nat.le_of_lt ha) hl,
    retryLoop_accepted _ _ _ a ha hok]
  simp

theorem batchLoop_exhaust (d : Dest) (dataToWrite : List ExportRow) (k startRow : Nat)
    (h : BATCH_SIZE * k < dataToWrite.length) (hl : RateLimited (d.batchUpdate k) 5) :
    batchLoop d dataToWrite (BATCH_SIZE * k) startRow =
      ⟨limitedAttempts (d.batchUpdate k) startRow (batch dataToWrite k) 5,
        .error (.unwritten startRow (startRow + BATCH_SIZE))⟩ := by
  rw [batchLoop_eq d dataToWrite k startRow h,
    retryLoop_after_limited _ _ _ 5 (Nat.le_refl 5) hl,
    retryLoop_exhausted _ _ _ 5 (Nat.le_refl 5)]
  simp

theorem batchLoop_fatal (d : Dest) (dataToWrite : List ExportRow) (k startRow a : Nat)
    (error : ApiError) (h : BATCH_SIZE * k < dataToWrite.length) (ha : a < 5)
    (hl : RateLimited (d.batchUpdate k) a) (he : d.batchUpdate k a = some error)
    (hc : error.code ≠ .num 429) :
    batchLoop d dataToWrite (BATCH_SIZE * k) startRow =
      ⟨limitedAttempts (d.batchUpdate k) startRow (batch dataToWrite k) a ++
        [.update startRow (batch dataToWrite k) (some error)], .error (.api error)⟩ := by
  rw [batchLoop_eq d dataToWrite k startRow h,
    retryLoop_after_limited _ _ _ a (Nat.le_of_lt ha) hl,
    retryLoop_fatal _ _ _ a ha error he hc]

theorem commitEvents_succ (d : Dest) (dataToWrite : List ExportRow) (tries : Nat → Nat)
    (start k : Nat) :
    commitEvents d dataToWrite tries start (k + 1) =
      commitEvents d dataToWrite tries start k ++
        (limitedAttempts (d.batchUpdate k) (start + BATCH_SIZE * k) (batch dataToWrite k)
            (tries k) ++
          [Event.update (start + BATCH_SIZE * k) (batch dataToWrite k) none,
           Event.cursor (start + BATCH_SIZE * (k + 1))]) := by
  unfold commitEvents
  simp [List.range_succ]

/-- While the batches commit, the loop runs through them one after the other. -/
theorem batchLoop_commits (d : Dest) (dataToWrite : List ExportRow) (tries : Nat → Nat)
    (start : Nat) :
    ∀ k, k ≤ batchCount dataToWrite.length → (∀ j, j < k → CommitsAfter d j (tries j)) →
      batchLoop d dataToWrite 0 start =
        Run.after (commitEvents d dataToWrite tries start k)
          (batchLoop d dataToWrite (BATCH_SIZE * k) (start + BATCH_SIZE * k)) := by
  intro k
  induction k with
  | zero => intro _ _; rfl
  | succ k ih =>
    intro hk hc
    have hlt : BATCH_SIZE * k < dataToWrite.length :=
      ((batchCount_spec dataToWrite.length).2 k).mp (by omega)
    have hs : start + BATCH_SIZE * k + BATCH_SIZE = start + BATCH_SIZE * (k + 1) := by
      rw [Nat.mul_add, Nat.mul_one, Nat.add_assoc]
    rw [ih (by omega) (fun j hj => hc j (Nat.lt_succ_of_lt hj)),
      batchLoop_commit d dataToWrite k _ (tries k) hlt (hc k (Nat.lt_succ_self k)),
      commitEvents_succ, hs]
    simp only [Run.after_append]

/-! ## Reading a trace -/

theorem updates_append (a b : List Event) : updates (a ++ b) = updates a ++ updates b := by
  induction a with
  | nil => rfl
  | cons e a ih => cases e <;> simp [updates, ih]

theorem committed_append (a b : List Event) :
    committed (a ++ b) = committed a ++ committed b := by
  induction a with
  | nil => rfl
  | cons e a ih =>
    cases e with
    | update row values answer => cases answer <;> simp [committed, ih]
    | appendDimension length answer => simp [committed, ih]
    | delay ms => simp [committed, ih]
    | cursor startRow => simp [committed, ih]

theorem cursors_append (a b : List Event) : cursors (a ++ b) = cursors a ++ cursors b := by
  induction a with
  | nil => rfl
  | cons e a ih => cases e <;> simp [cursors, ih]

theorem updates_limitedAttempts (answer : Nat → Option ApiError) (startRow : Nat)
    (batchData : List (List Value)) (m : Nat) :
    updates (limitedAttempts answer startRow batchData m) =
      (List.range m).map (fun a => (startRow, batchData, answer a)) := by
  induction m with
  | zero => rfl
  | succ m ih =>
    rw [limitedAttempts_succ, updates_append, ih, List.range_succ, List.map_append]
    rfl

theorem cursors_limitedAttempts (answer : Nat → Option ApiError) (startRow : Nat)
    (batchData : List (List Value)) (m : Nat) :
    cursors (limitedAttempts answer startRow batchData m) = [] := by
  induction m with
  | zero => rfl
  | succ m ih =>
    rw [limitedAttempts_succ, cursors_append, ih]
    rfl

theorem committed_limitedAttempts (answer : Nat → Option ApiError) (startRow : Nat)
    (batchData : List (List Value)) (m : Nat) (h : RateLimited answer m) :
    committed (limitedAttempts answer startRow batchData m) = [] := by
  induction m with
  | zero => rfl
  | succ m ih =>
    obtain ⟨error, he, _⟩ := h m (Nat.lt_succ_self m)
    rw [limitedAttempts_succ, committed_append, ih (fun a ha => h a (Nat.lt_succ_of_lt ha)), he]
    rfl

theorem committed_commitEvents (d : Dest) (dataToWrite : List ExportRow) (tries : Nat → Nat)
    (start : Nat) :
    ∀ k, (∀ j, j < k → RateLimited (d.batchUpdate j) (tries j)) →
      committed (commitEvents d dataToWrite tries start k) =
        (List.range k).map (fun j => (start + BATCH_SIZE * j, batch dataToWrite j)) := by
  intro k
  induction k with
  | zero => intro _; rfl
  | succ k ih =>
    intro h
    rw [commitEvents_succ, committed_append, ih (fun j hj => h j (Nat.lt_succ_of_lt hj)),
      committed_append, committed_limitedAttempts _ _ _ _ (h k (Nat.lt_succ_self k)),
      List.range_succ, List.map_append]
    rfl

theorem cursors_commitEvents (d : Dest) (dataToWrite : List ExportRow) (tries : Nat → Nat)
    (start : Nat) :
    ∀ k, cursors (commitEvents d dataToWrite tries start k) =
        (List.range k).map (fun j => start + BATCH_SIZE * (j + 1)) := by
  intro k
  induction k with
  | zero => rfl
  | succ k ih =>
    rw [commitEvents_succ, cursors_append, ih, cursors_append, cursors_limitedAttempts,
      List.range_succ, List.map_append]
    rfl

/-- The first `k` batches, concatenated, are the first `BATCH_SIZE * k` rows. -/
theorem batches_flatten_take (dataToWrite : List ExportRow) :
    ∀ k, ((List.range k).map (batch dataToWrite)).flatten =
      (dataToWrite.take (BATCH_SIZE * k)).map ExportRow.toCells := by
  intro k
  induction k with
  | zero => simp
  | succ k ih =>
    rw [List.range_succ, List.map_append, List.flatten_append, ih, Nat.mul_add, Nat.mul_one,
      List.take_add, List.map_append]
    simp [batch]

theorem batches_flatten (dataToWrite : List ExportRow) :
    ((List.range (batchCount dataToWrite.length)).map (batch dataToWrite)).flatten =
      dataToWrite.map ExportRow.toCells := by
  rw [batches_flatten_take, List.take_of_length_le (batchCount_spec dataToWrite.length).1]

theorem batch_length (dataToWrite : List ExportRow) (k : Nat) :
    (batch dataToWrite k).length =
      min (BATCH_SIZE * (k + 1)) dataToWrite.length - BATCH_SIZE * k := by
  unfold batch
  rw [List.length_map, List.length_take, List.length_drop]
  simp only [BATCH_SIZE]
  omega

/-! ## The writer as a whole -/

theorem writeToGoogleSheet_eq (d : Dest) (dataToWrite : List ExportRow) (currentRows : Nat)
    (rows : List (List Value)) (hsheet : d.sheetInfo = .ok currentRows)
    (happend : ∀ n, d.appendDimension n = none) (hrows : d.getRows = .ok rows)
    (hheader : rows.length = 0 → d.headerUpdate = none) :
    writeToGoogleSheet d dataToWrite =
      Run.after (setupEvents currentRows rows dataToWrite.length)
        (batchLoop d dataToWrite 0 (initialCursor rows)) := by
  have hplace : placeHeaderAndWrite d dataToWrite =
      Run.after (if rows.length = 0 then
          [Event.cursor (rows.length + 1), Event.update 1 [header] none, Event.cursor 2]
        else [Event.cursor (rows.length + 1)])
        (batchLoop d dataToWrite 0 (initialCursor rows)) := by
    unfold placeHeaderAndWrite initialCursor
    rw [hrows]
    by_cases h0 : rows.length = 0
    · simp [h0, hheader h0]
    · simp [h0]
  unfold writeToGoogleSheet setupEvents
  rw [hsheet]
  by_cases hc : dataToWrite.length + 1 > currentRows
  · simp only [hc, if_true, happend, hplace]
    simp [Run.after]
  · simp only [hc, if_false, hplace]
    simp [Run.after]

theorem committed_setupEvents (currentRows : Nat) (rows : List (List Value)) (n : Nat) :
    committed (setupEvents currentRows rows n) = headerCommit rows := by
  unfold setupEvents headerCommit
  by_cases hc : n + 1 > currentRows <;> by_cases h0 : rows.length = 0 <;>
    simp [hc, h0, committed]

/-- The batch loop when every batch commits. -/
theorem batchLoop_all_commit (d : Dest) (dataToWrite : List ExportRow) (tries : Nat → Nat)
    (start : Nat)
    (hbatches : ∀ k, k < batchCount dataToWrite.length → CommitsAfter d k (tries k)) :
    batchLoop d dataToWrite 0 start =
      ⟨commitEvents d dataToWrite tries start (batchCount dataToWrite.length), .ok ()⟩ := by
  rw [batchLoop_commits d dataToWrite tries start (batchCount dataToWrite.length)
      (Nat.le_refl _) hbatches,
    batchLoop_done d dataToWrite _ _ (batchCount_spec dataToWrite.length).1]
  simp [Run.after]

/-- Claim C1. Let the set-up requests be accepted and let every batch be
rate-limited fewer than 5 times before its write is accepted (`tries k` times
for batch `k`). Then the writer returns, and the writes it commits are, after
the header when the sheet was empty, exactly one per batch: batch `k` at row
`start + 1000 * k`, `start` being the initial cursor, with the rows
`data[1000 * k .. min (1000 * (k + 1)) n)` mapped to their nine cells in the
order id, firstName, lastName, gender, address, city, phone, email, status.
The committed batches concatenated in order are the input in input order. For
2500 rows and an empty sheet the batches are committed at rows 2, 1002 and
2002 with 1000, 1000 and 500 rows. -/
theorem writer_commits_batches (d : Dest) (dataToWrite : List ExportRow) (currentRows : Nat)
    (rows : List (List Value)) (tries : Nat → Nat)
    (hsheet : d.sheetInfo = .ok currentRows) (happend : ∀ n, d.appendDimension n = none)
    (hrows : d.getRows = .ok rows) (hheader : rows.length = 0 → d.headerUpdate = none)
    (hbatches : ∀ k, k < batchCount dataToWrite.length → CommitsAfter d k (tries k)) :
    (writeToGoogleSheet d dataToWrite).result = .ok () ∧
    committed (writeToGoogleSheet d dataToWrite).trace =
      headerCommit rows ++ (List.range (batchCount dataToWrite.length)).map
        (fun k => (initialCursor rows + 1000 * k, batch dataToWrite k)) ∧
    (∀ k, batch dataToWrite k =
      ((dataToWrite.drop (1000 * k)).take 1000).map (fun client =>
        [client.id, client.firstName, client.lastName, client.gender, client.address,
         client.city, client.phone, client.email, client.status])) ∧
    (∀ k, (batch dataToWrite k).length = min (1000 * (k + 1)) dataToWrite.length - 1000 * k) ∧
    ((List.range (batchCount dataToWrite.length)).map (batch dataToWrite)).flatten =
      dataToWrite.map ExportRow.toCells ∧
    (dataToWrite.length = 2500 → rows = [] →
      committed (writeToGoogleSheet d dataToWrite).trace =
        [(1, [header]), (2, batch dataToWrite 0), (1002, batch dataToWrite 1),
         (2002, batch dataToWrite 2)] ∧
      (batch dataToWrite 0).length = 1000 ∧ (batch dataToWrite 1).length = 1000 ∧
      (batch dataToWrite 2).length = 500) := by
  have hrun := writeToGoogleSheet_eq d dataToWrite currentRows rows hsheet happend hrows hheader
  have hloop := batchLoop_all_commit d dataToWrite tries (initialCursor rows) hbatches
  have hcommitted : committed (writeToGoogleSheet d dataToWrite).trace =
      headerCommit rows ++ (List.range (batchCount dataToWrite.length)).map
        (fun k => (initialCursor rows + 1000 * k, batch dataToWrite k)) := by
    rw [hrun, hloop]
    simp only [Run.after]
    rw [committed_append, committed_setupEvents,
      committed_commitEvents d dataToWrite tries (initialCursor rows) _
        (fun j hj => (hbatches j hj).2.1)]
    rfl
  have hlen : ∀ k, (batch dataToWrite k).length =
      min (1000 * (k + 1)) dataToWrite.length - 1000 * k := batch_length dataToWrite
  refine ⟨?_, hcommitted, fun k => rfl, hlen, batches_flatten dataToWrite, ?_⟩
  · rw [hrun, hloop]
    rfl
  · intro hn hr
    refine ⟨?_, ?_, ?_, ?_⟩
    · rw [hcommitted, hn, hr]
      rfl
    · rw [hlen, hn]
      decide
    · rw [hlen, hn]
      decide
    · rw [hlen, hn]
      decide

/-- Claim C2. Let the set-up requests be accepted, let the batches before
batch `k` commit, and let every attempt at batch `k` be answered with the code
429. Then the trace ends with exactly 5 attempts at batch `k`, each with the
rows of batch `k` at the cursor row `start + 1000 * k` and each followed by
the wait; the writer then throws the error of line 176; the committed writes
are those of the header and of the batches before `k`, so no row of batch `k`
is committed; and nothing follows the fifth attempt, so no later batch is
attempted. -/
theorem writer_retry_bound (d : Dest) (dataToWrite : List ExportRow) (currentRows : Nat)
    (rows : List (List Value)) (tries : Nat → Nat) (k : Nat)
    (hsheet : d.sheetInfo = .ok currentRows) (happend : ∀ n, d.appendDimension n = none)
    (hrows : d.getRows = .ok rows) (hheader : rows.length = 0 → d.headerUpdate = none)
    (hk : k < batchCount dataToWrite.length)
    (hbefore : ∀ j, j < k → CommitsAfter d j (tries j))
    (hlimited : ∀ a, ∃ error, d.batchUpdate k a = some error ∧ error.code = .num 429) :
    (writeToGoogleSheet d dataToWrite).trace =
      setupEvents currentRows rows dataToWrite.length ++
        commitEvents d dataToWrite tries (initialCursor rows) k ++
        limitedAttempts (d.batchUpdate k) (initialCursor rows + 1000 * k)
          (batch dataToWrite k) 5 ∧
    updates (limitedAttempts (d.batchUpdate k) (initialCursor rows + 1000 * k)
        (batch dataToWrite k) 5) =
      (List.range 5).map (fun a =>
        (initialCursor rows + 1000 * k, batch dataToWrite k, d.batchUpdate k a)) ∧
    (∃ error, (writeToGoogleSheet d dataToWrite).result = .error error) ∧
    (writeToGoogleSheet d dataToWrite).result =
      .error (.unwritten (initialCursor rows + 1000 * k)
        (initialCursor rows + 1000 * k + BATCH_SIZE)) ∧
    committed (writeToGoogleSheet d dataToWrite).trace =
      headerCommit rows ++ (List.range k).map
        (fun j => (initialCursor rows + 1000 * j, batch dataToWrite j)) := by
  have hlt : BATCH_SIZE * k < dataToWrite.length :=
    ((batchCount_spec dataToWrite.length).2 k).mp hk
  have hl5 : RateLimited (d.batchUpdate k) 5 := fun a _ => hlimited a
  have hrun : writeToGoogleSheet d dataToWrite =
      ⟨setupEvents currentRows rows dataToWrite.length ++
        commitEvents d dataToWrite tries (initialCursor rows) k ++
        limitedAttempts (d.batchUpdate k) (initialCursor rows + 1000 * k)
          (batch dataToWrite k) 5,
       .error (.unwritten (initialCursor rows + 1000 * k)
        (initialCursor rows + 1000 * k + BATCH_SIZE))⟩ := by
    rw [writeToGoogleSheet_eq d dataToWrite currentRows rows hsheet happend hrows hheader,
      batchLoop_commits d dataToWrite tries (initialCursor rows) k (Nat.le_of_lt hk) hbefore,
      batchLoop_exhaust d dataToWrite k _ hlt hl5]
    simp [Run.after, BATCH_SIZE]
  refine ⟨?_, updates_limitedAttempts _ _ _ 5, ⟨Thrown.unwritten (initialCursor rows + 1000 * k)
    (initialCursor rows + 1000 * k + BATCH_SIZE), ?_⟩, ?_, ?_⟩
  · rw [hrun]
  · rw [hrun]
  · rw [hrun]
  · rw [hrun]
    simp only
    rw [committed_append, committed_append, committed_setupEvents,
      committed_commitEvents d dataToWrite tries (initialCursor rows) k
        (fun j hj => (hbefore j hj).2.1),
      committed_limitedAttempts _ _ _ 5 hl5, List.append_nil]
    rfl

/-- Claim C8. Let the set-up requests be accepted, let the batches before
batch `k` commit, and let batch `k` be rate-limited `a` times, with `a < 5`,
before an attempt is answered with an error whose code is not 429. Then the
writer throws that same error, and the trace ends with the failing attempt:
no further attempt at the batch, no wait after it, no attempt at a later
batch. -/
theorem writer_fails_fast (d : Dest) (dataToWrite : List ExportRow) (currentRows : Nat)
    (rows : List (List Value)) (tries : Nat → Nat) (k a : Nat) (error : ApiError)
    (hsheet : d.sheetInfo = .ok currentRows) (happend : ∀ n, d.appendDimension n = none)
    (hrows : d.getRows = .ok rows) (hheader : rows.length = 0 → d.headerUpdate = none)
    (hk : k < batchCount dataToWrite.length)
    (hbefore : ∀ j, j < k → CommitsAfter d j (tries j))
    (ha : a < 5) (hlimited : RateLimited (d.batchUpdate k) a)
    (herror : d.batchUpdate k a = some error) (hcode : error.code ≠ .num 429) :
    (writeToGoogleSheet d dataToWrite).result = .error (.api error) ∧
    (writeToGoogleSheet d dataToWrite).trace =
      setupEvents currentRows rows dataToWrite.length ++
        commitEvents d dataToWrite tries (initialCursor rows) k ++
        limitedAttempts (d.batchUpdate k) (initialCursor rows + 1000 * k)
          (batch dataToWrite k) a ++
        [Event.update (initialCursor rows + 1000 * k) (batch dataToWrite k) (some error)] ∧
    committed (writeToGoogleSheet d dataToWrite).trace =
      headerCommit rows ++ (List.range k).map
        (fun j => (initialCursor rows + 1000 * j, batch dataToWrite j)) := by
  have hlt : BATCH_SIZE * k < dataToWrite.length :=
    ((batchCount_spec dataToWrite.length).2 k).mp hk
  have hrun : writeToGoogleSheet d dataToWrite =
      ⟨setupEvents currentRows rows dataToWrite.length ++
        commitEvents d dataToWrite tries (initialCursor rows) k ++
        limitedAttempts (d.batchUpdate k) (initialCursor rows + 1000 * k)
          (batch dataToWrite k) a ++
        [Event.update (initialCursor rows + 1000 * k) (batch dataToWrite k) (some error)],
       .error (.api error)⟩ := by
    rw [writeToGoogleSheet_eq d dataToWrite currentRows rows hsheet happend hrows hheader,
      batchLoop_commits d dataToWrite tries (initialCursor rows) k (Nat.le_of_lt hk) hbefore,
      batchLoop_fatal d dataToWrite k _ a error hlt ha hlimited herror hcode]
    simp [Run.after, BATCH_SIZE]
  refine ⟨?_, ?_, ?_⟩
  · rw [hrun]
  · rw [hrun]
  · rw [hrun]
    simp only
    rw [committed_append, committed_append, committed_append, committed_setupEvents,
      committed_commitEvents d dataToWrite tries (initialCursor rows) k
        (fun j hj => (hbefore j hj).2.1),
      committed_limitedAttempts _ _ _ a hlimited, List.append_nil]
    exact List.append_nil _

/-! ## The shape of every run of the loops -/

theorem Quiet.nil (startRow : Nat) (batchData : List (List Value)) :
    Quiet startRow batchData [] := by
  intro e he
  cases he

theorem Quiet.cons_limited (startRow : Nat) (batchData : List (List Value)) (error : ApiError)
    (events : List Event) (h : Quiet startRow batchData events) :
    Quiet startRow batchData
      (.update startRow batchData (some error) :: .delay RETRY_DELAY :: events) := by
  intro e he
  simp only [List.mem_cons] at he
  rcases he with rfl | rfl | he
  · exact Or.inl ⟨error, rfl⟩
  · exact Or.inr rfl
  · exact h e he

theorem Quiet.cursors_eq (startRow : Nat) (batchData : List (List Value)) :
    ∀ events, Quiet startRow batchData events → cursors events = [] := by
  intro events
  induction events with
  | nil => intro _; rfl
  | cons e events ih =>
    intro h
    have ht : Quiet startRow batchData events := fun x hx => h x (List.mem_cons_of_mem e hx)
    rcases h e (List.mem_cons_self e events) with ⟨error, rfl⟩ | rfl
    · simpa [cursors] using ih ht
    · simpa [cursors] using ih ht

theorem Quiet.updates_row (startRow : Nat) (batchData : List (List Value)) :
    ∀ events, Quiet startRow batchData events → ∀ u, u ∈ updates events → u.1 = startRow := by
  intro events
  induction events with
  | nil => intro _ u hu; cases hu
  | cons e events ih =>
    intro h u hu
    have ht : Quiet startRow batchData events := fun x hx => h x (List.mem_cons_of_mem e hx)
    rcases h e (List.mem_cons_self e events) with ⟨error, rfl⟩ | rfl
    · simp only [updates, List.mem_cons] at hu
      rcases hu with rfl | hu
      · rfl
      · exact ih ht u hu
    · simp only [updates] at hu
      exact ih ht u hu

theorem Quiet.eachCommit_append (P : Nat → List (List Value) → List Event → Prop)
    (startRow : Nat) (batchData : List (List Value)) (t : List Event) :
    ∀ events, Quiet startRow batchData events → EachCommit P t →
      EachCommit P (events ++ t) := by
  intro events
  induction events with
  | nil => intro _ ht; exact ht
  | cons e events ih =>
    intro h hP
    have ht : Quiet startRow batchData events := fun x hx => h x (List.mem_cons_of_mem e hx)
    rcases h e (List.mem_cons_self e events) with ⟨error, rfl⟩ | rfl
    · simpa [EachCommit] using ih ht hP
    · simpa [EachCommit] using ih ht hP

/-- Every run of the retry loop either ends with the accepted write, after
rejected attempts and waits only, or holds rejected attempts and waits only. -/
theorem retryLoop_shape (answer : Nat → Option ApiError) (startRow : Nat)
    (batchData : List (List Value)) :
    ∀ m attempt, 5 - attempt ≤ m →
      (∃ fails, Quiet startRow batchData fails ∧
        retryLoop answer startRow batchData attempt =
          (fails ++ [.update startRow batchData none], .ok true)) ∨
      (Quiet startRow batchData (retryLoop answer startRow batchData attempt).1 ∧
        (retryLoop answer startRow batchData attempt).2 ≠ .ok true) := by
  intro m
  induction m with
  | zero =>
    intro attempt h
    right
    rw [retryLoop_exhausted answer startRow batchData attempt (by omega)]
    exact ⟨Quiet.nil _ _, by simp⟩
  | succ m ih =>
    intro attempt h
    rcases Nat.lt_or_ge attempt 5 with hlt | hge
    · cases ha : answer attempt with
      | none =>
        left
        exact ⟨[], Quiet.nil _ _, retryLoop_accepted answer startRow batchData attempt hlt ha⟩
      | some error =>
        by_cases hc : error.code = .num 429
        · rw [retryLoop_limited answer startRow batchData attempt hlt error ha hc]
          rcases ih (attempt + 1) (by omega) with ⟨fails, hq, hr⟩ | ⟨hq, hr⟩
          · left
            refine ⟨.update startRow batchData (some error) :: .delay RETRY_DELAY :: fails,
              Quiet.cons_limited _ _ _ _ hq, ?_⟩
            rw [hr]
            rfl
          · right
            exact ⟨Quiet.cons_limited _ _ _ _ hq, hr⟩
        · right
          rw [retryLoop_fatal answer startRow batchData attempt hlt error ha hc]
          refine ⟨?_, by simp⟩
          intro e he
          simp only [List.mem_singleton] at he
          exact Or.inl ⟨error, he⟩
    · right
      rw [retryLoop_exhausted answer startRow batchData attempt hge]
      exact ⟨Quiet.nil _ _, by simp⟩

/-- One iteration of the batch loop, for every answer of the service. -/
theorem batchLoop_iteration (d : Dest) (dataToWrite : List ExportRow) (i startRow : Nat)
    (h : i < dataToWrite.length) :
    (∃ fails, Quiet startRow (((dataToWrite.drop i).take BATCH_SIZE).map ExportRow.toCells) fails ∧
      (batchLoop d dataToWrite i startRow).trace =
        fails ++ [Event.update startRow
            (((dataToWrite.drop i).take BATCH_SIZE).map ExportRow.toCells) none,
          Event.cursor (startRow + BATCH_SIZE)] ++
          (batchLoop d dataToWrite (i + BATCH_SIZE) (startRow + BATCH_SIZE)).trace) ∨
    Quiet startRow (((dataToWrite.drop i).take BATCH_SIZE).map ExportRow.toCells)
      (batchLoop d dataToWrite i startRow).trace := by
  conv => enter [1, 1, fails, 2, 1]; rw [batchLoop]
  conv => enter [2, 3]; rw [batchLoop]
  simp only [h, if_true]
  rcases retryLoop_shape (d.batchUpdate (i / BATCH_SIZE)) startRow
      (((dataToWrite.drop i).take BATCH_SIZE).map ExportRow.toCells) 5 0 (by omega) with
    ⟨fails, hq, hr⟩ | ⟨hq, hr⟩
  · left
    refine ⟨fails, hq, ?_⟩
    rw [hr]
    simp [Run.after]
  · right
    revert hq hr
    cases retryLoop (d.batchUpdate (i / BATCH_SIZE)) startRow
      (((dataToWrite.drop i).take BATCH_SIZE).map ExportRow.toCells) 0 with
    | mk events res =>
      cases res with
      | error error => intro hq _; exact hq
      | ok b =>
        cases b with
        | false => intro hq _; exact hq
        | true => intro _ hr; exact absurd rfl hr

/-- Every run of the batch loop, whatever the service answers: the values of
the cursor never decrease and are at least the entry value, and no write
targets a row before the entry value of the cursor. -/
theorem batchLoop_shape (d : Dest) (dataToWrite : List ExportRow) :
    ∀ m i startRow, dataToWrite.length - i ≤ m →
      List.Pairwise (fun a b => a ≤ b) (cursors (batchLoop d dataToWrite i startRow).trace) ∧
      (∀ c, c ∈ cursors (batchLoop d dataToWrite i startRow).trace → startRow ≤ c) ∧
      (∀ u, u ∈ updates (batchLoop d dataToWrite i startRow).trace → startRow ≤ u.1) := by
  intro m
  induction m with
  | zero =>
    intro i startRow h
    rw [batchLoop_done d dataToWrite i startRow (by omega)]
    simp [cursors, updates]
  | succ m ih =>
    intro i startRow h
    rcases Nat.lt_or_ge i dataToWrite.length with hlt | hge
    · rcases batchLoop_iteration d dataToWrite i startRow hlt with ⟨fails, hq, ht⟩ | hq
      · obtain ⟨hp, hc, hu⟩ := ih (i + BATCH_SIZE) (startRow + BATCH_SIZE)
          (by simp only [BATCH_SIZE]; omega)
        rw [ht]
        refine ⟨?_, ?_, ?_⟩
        · rw [cursors_append, cursors_append, Quiet.cursors_eq _ _ fails hq]
          simp only [cursors, List.nil_append, List.singleton_append, List.pairwise_cons]
          exact ⟨fun c hcm => hc c hcm, hp⟩
        · intro c hcm
          rw [cursors_append, cursors_append, Quiet.cursors_eq _ _ fails hq] at hcm
          simp only [cursors, List.nil_append, List.singleton_append, List.mem_cons] at hcm
          rcases hcm with rfl | hcm
          · omega
          · have := hc c hcm
            omega
        · intro u hum
          rw [updates_append, updates_append] at hum
          simp only [updates, List.mem_append, List.mem_singleton] at hum
          rcases hum with (hum | rfl) | hum
          · rw [Quiet.updates_row _ _ fails hq u hum]
          · exact Nat.le_refl _
          · have := hu u hum
            omega
      · refine ⟨?_, ?_, ?_⟩
        · rw [Quiet.cursors_eq _ _ _ hq]
          exact List.Pairwise.nil
        · intro c hcm
          rw [Quiet.cursors_eq _ _ _ hq] at hcm
          cases hcm
        · intro u hum
          rw [Quiet.updates_row _ _ _ hq u hum]
    · rw [batchLoop_done d dataToWrite i startRow hge]
      simp [cursors, updates]

theorem EachCommit.mono (P Q : Nat → List (List Value) → List Event → Prop)
    (h : ∀ row values next, P row values next → Q row values next) :
    ∀ t, EachCommit P t → EachCommit Q t := by
  intro t
  induction t with
  | nil => intro _; trivial
  | cons e t ih =>
    cases e with
    | update row values answer =>
      cases answer with
      | none =>
        intro ht
        simp only [EachCommit] at ht ⊢
        exact ⟨h _ _ _ ht.1, ih ht.2⟩
      | some error =>
        intro ht
        simp only [EachCommit] at ht ⊢
        exact ih ht
    | appendDimension length answer =>
      intro ht
      simp only [EachCommit] at ht ⊢
      exact ih ht
    | delay ms =>
      intro ht
      simp only [EachCommit] at ht ⊢
      exact ih ht
    | cursor startRow =>
      intro ht
      simp only [EachCommit] at ht ⊢
      exact ih ht

/-- Every accepted write of the batch loop entered at batch `k` is the write
of a batch at its cursor row, followed by the advance of the cursor. -/
theorem eachCommit_batchLoop (d : Dest) (dataToWrite : List ExportRow) (start : Nat) :
    ∀ m k, dataToWrite.length - BATCH_SIZE * k ≤ m →
      EachCommit (BatchCommitted dataToWrite start)
        (batchLoop d dataToWrite (BATCH_SIZE * k) (start + BATCH_SIZE * k)).trace := by
  intro m
  induction m with
  | zero =>
    intro k h
    rw [batchLoop_done d dataToWrite _ _ (by omega)]
    trivial
  | succ m ih =>
    intro k h
    rcases Nat.lt_or_ge (BATCH_SIZE * k) dataToWrite.length with hlt | hge
    · rcases batchLoop_iteration d dataToWrite (BATCH_SIZE * k) (start + BATCH_SIZE * k) hlt with
        ⟨fails, hq, ht⟩ | hq
      · have hnext : BATCH_SIZE * k + BATCH_SIZE = BATCH_SIZE * (k + 1) := by
          rw [Nat.mul_add, Nat.mul_one]
        have hcur : start + BATCH_SIZE * k + BATCH_SIZE = start + BATCH_SIZE * (k + 1) := by
          rw [Nat.mul_add, Nat.mul_one, Nat.add_assoc]
        have hrest := ih (k + 1) (by simp only [BATCH_SIZE] at h ⊢; omega)
        rw [ht, hnext, hcur, List.append_assoc]
        apply Quiet.eachCommit_append _ _ _ _ fails hq
        simp only [List.cons_append, List.nil_append, EachCommit]
        refine ⟨⟨k, hlt, rfl, rfl,
          ⟨(batchLoop d dataToWrite (BATCH_SIZE * (k + 1))
            (start + BATCH_SIZE * (k + 1))).trace, ?_⟩, ?_, ?_, ?_, ?_⟩, hrest⟩
        · rw [← hcur]
          rfl
        · rw [List.length_map, List.length_take, List.length_drop]
          simp only [BATCH_SIZE] at hlt ⊢
          omega
        · rw [List.length_map, List.length_take, List.length_drop]
          rfl
        · intro hfull
          rw [List.length_map, List.length_take, List.length_drop]
          simp only [BATCH_SIZE]
          omega
        · intro hshort
          rw [List.length_map, List.length_take, List.length_drop]
          simp only [BATCH_SIZE] at hlt ⊢
          omega
      · have := Quiet.eachCommit_append (BatchCommitted dataToWrite start) _ _ [] _ hq
          (by simp [EachCommit])
        rwa [List.append_nil] at this
    · rw [batchLoop_done d dataToWrite _ _ hge]
      trivial

theorem eachCommit_batchLoop_zero (d : Dest) (dataToWrite : List ExportRow) (start : Nat) :
    EachCommit (BatchCommitted dataToWrite start) (batchLoop d dataToWrite 0 start).trace :=
  eachCommit_batchLoop d dataToWrite start _ 0 (Nat.le_refl _)

theorem eachCommit_placeHeaderAndWrite (d : Dest) (dataToWrite : List ExportRow) :
    EachCommit (WriteCommitted dataToWrite (firstCursor d))
      (placeHeaderAndWrite d dataToWrite).trace := by
  unfold placeHeaderAndWrite firstCursor
  cases d.getRows with
  | error error => trivial
  | ok rows =>
    simp only
    by_cases h0 : rows.length = 0
    · simp only [h0, if_true]
      cases d.headerUpdate with
      | some error => simp [EachCommit]
      | none =>
        simp only [Run.after, List.cons_append, List.nil_append, EachCommit]
        exact ⟨Or.inl ⟨rfl, rfl, _, rfl⟩,
          EachCommit.mono _ _ (fun _ _ _ h => Or.inr h) _
            (eachCommit_batchLoop_zero d dataToWrite 2)⟩
    · simp only [h0, if_false, Run.after, List.cons_append, List.nil_append, EachCommit]
      exact EachCommit.mono _ _ (fun _ _ _ h => Or.inr h) _
        (eachCommit_batchLoop_zero d dataToWrite (rows.length + 1))

theorem eachCommit_writeToGoogleSheet (d : Dest) (dataToWrite : List ExportRow) :
    EachCommit (WriteCommitted dataToWrite (firstCursor d))
      (writeToGoogleSheet d dataToWrite).trace := by
  unfold writeToGoogleSheet
  cases d.sheetInfo with
  | error error => trivial
  | ok currentRows =>
    simp only
    by_cases hc : dataToWrite.length + 1 > currentRows
    · simp only [hc, if_true]
      cases d.appendDimension (dataToWrite.length + 1 - currentRows) with
      | some error => simp [EachCommit]
      | none =>
        simp only [Run.after, List.cons_append, List.nil_append, EachCommit]
        exact eachCommit_placeHeaderAndWrite d dataToWrite
    · simp only [hc, if_false]
      exact eachCommit_placeHeaderAndWrite d dataToWrite

theorem cursors_placeHeaderAndWrite (d : Dest) (dataToWrite : List ExportRow) :
    List.Pairwise (fun a b => a ≤ b) (cursors (placeHeaderAndWrite d dataToWrite).trace) := by
  unfold placeHeaderAndWrite
  cases d.getRows with
  | error error => simp [cursors]
  | ok rows =>
    simp only
    by_cases h0 : rows.length = 0
    · simp only [h0, if_true]
      cases d.headerUpdate with
      | some error => simp [cursors]
      | none =>
        obtain ⟨hp, hc, _⟩ := batchLoop_shape d dataToWrite _ 0 2 (Nat.le_refl _)
        simp only [Run.after, List.cons_append, List.nil_append, cursors, List.pairwise_cons,
          List.mem_cons]
        refine ⟨?_, ?_, hp⟩
        · intro c hcm
          rcases hcm with rfl | hcm
          · omega
          · have := hc c hcm
            omega
        · exact fun c hcm => hc c hcm
    · simp only [h0, if_false]
      obtain ⟨hp, hc, _⟩ := batchLoop_shape d dataToWrite _ 0 (rows.length + 1) (Nat.le_refl _)
      simp only [Run.after, List.cons_append, List.nil_append, cursors, List.pairwise_cons]
      exact ⟨fun c hcm => hc c hcm, hp⟩

theorem cursors_writeToGoogleSheet (d : Dest) (dataToWrite : List ExportRow) :
    List.Pairwise (fun a b => a ≤ b) (cursors (writeToGoogleSheet d dataToWrite).trace) := by
  unfold writeToGoogleSheet
  cases d.sheetInfo with
  | error error => simp [cursors]
  | ok currentRows =>
    simp only
    by_cases hc : dataToWrite.length + 1 > currentRows
    · simp only [hc, if_true]
      cases d.appendDimension (dataToWrite.length + 1 - currentRows) with
      | some error => simp [cursors]
      | none =>
        simp only [Run.after, List.cons_append, List.nil_append, cursors]
        exact cursors_placeHeaderAndWrite d dataToWrite
    · simp only [hc, if_false]
      exact cursors_placeHeaderAndWrite d dataToWrite

/-! ## The write cursor -/

theorem commitsAfter_zero (d : Dest) (k : Nat) (h : d.batchUpdate k 0 = none) :
    CommitsAfter d k 0 :=
  ⟨by decide, fun a ha => absurd ha (Nat.not_lt_zero a), h⟩

/-- Claim C10 as stated fails: on an empty sheet, after the batch of one row
is committed at row 2 the cursor is 1002, not 3; it has advanced by 1000, not
by the one row of the batch. -/
theorem cursor_overshoots_short_batch :
    (writeToGoogleSheet (emptySheetDest (fun _ _ => none)) [sampleRow]).trace =
      [.cursor 1, .update 1 [header] none, .cursor 2,
       .update 2 [sampleRow.toCells] none, .cursor 1002] ∧
    (1002 : Nat) ≠ 2 + [sampleRow.toCells].length := by
  constructor
  · rw [writeToGoogleSheet_eq (emptySheetDest (fun _ _ => none)) [sampleRow] 1000 [] rfl
        (fun _ => rfl) rfl (fun _ => rfl),
      batchLoop_all_commit (emptySheetDest (fun _ _ => none)) [sampleRow] (fun _ => 0) _
        (fun k _ => commitsAfter_zero _ k rfl)]
    rfl
  · decide

/-- Claim C10, amended. In every run of the writer, whatever the service
answers, the values taken by the write cursor never decrease, and every
accepted write is the header at row 1, after which the cursor is 2, or a
batch `k` at the row `start + 1000 * k` with the rows
`data[1000 * k .. 1000 * k + 1000)`, immediately followed by the advance of
the cursor by exactly 1000 (`BATCH_SIZE`). Every batch holds 1000 rows except
a last one that the data do not fill. So after the commit of every full batch
the cursor equals the index of the last committed row plus 1, and after the
commit of a last batch of fewer than 1000 rows it exceeds that value by the
number of rows missing from the batch. The same holds for the batch loop
entered with any cursor. -/
theorem cursor_advances_by_batch_size (d : Dest) (dataToWrite : List ExportRow) :
    List.Pairwise (fun a b => a ≤ b) (cursors (writeToGoogleSheet d dataToWrite).trace) ∧
    EachCommit (WriteCommitted dataToWrite (firstCursor d))
      (writeToGoogleSheet d dataToWrite).trace ∧
    ∀ start, EachCommit (BatchCommitted dataToWrite start)
      (batchLoop d dataToWrite 0 start).trace :=
  ⟨cursors_writeToGoogleSheet d dataToWrite, eachCommit_writeToGoogleSheet d dataToWrite,
   fun start => eachCommit_batchLoop_zero d dataToWrite start⟩

/-- On an empty sheet, with every attempt at the first batch rate-limited,
the writer throws the error of line 176 for the cursor 2. -/
theorem exhausted_first_batch (dataToWrite : List ExportRow) (h : 0 < dataToWrite.length) :
    (writeToGoogleSheet (emptySheetDest (fun _ _ => some ⟨.num 429⟩)) dataToWrite).result =
      .error (.unwritten 2 1002) := by
  have hl : RateLimited ((emptySheetDest (fun _ _ => some ⟨.num 429⟩)).batchUpdate 0) 5 :=
    fun a _ => ⟨⟨.num 429⟩, rfl, rfl⟩
  have hb := batchLoop_exhaust (emptySheetDest (fun _ _ => some ⟨.num 429⟩)) dataToWrite 0 2
    (by simpa [BATCH_SIZE] using h) hl
  have h0 : BATCH_SIZE * 0 = 0 := rfl
  rw [h0] at hb
  rw [writeToGoogleSheet_eq (emptySheetDest (fun _ _ => some ⟨.num 429⟩)) dataToWrite 1000 []
      rfl (fun _ => rfl) rfl (fun _ => rfl)]
  have hi : initialCursor [] = 2 := rfl
  rw [hi]
  simp only [Run.after, hb]
  rfl

/-! ## The error of line 176 -/

/-- Claim C9 fails on the code. With one row to write on an empty sheet and
every attempt rate-limited, the batch would occupy row 2 only, and the error
names the rows 2 to 1002. With 1000 rows the batch would occupy the rows 2 to
1001, and the error again names the rows 2 to 1002. -/
theorem unwritten_range_overshoots :
    (writeToGoogleSheet (emptySheetDest (fun _ _ => some ⟨.num 429⟩)) [sampleRow]).result =
      .error (.unwritten 2 1002) ∧
    (batch [sampleRow] 0).length = 1 ∧
    (writeToGoogleSheet (emptySheetDest (fun _ _ => some ⟨.num 429⟩))
        (List.replicate 1000 sampleRow)).result =
      .error (.unwritten 2 1002) ∧
    (batch (List.replicate 1000 sampleRow) 0).length = 1000 ∧
    unwrittenMessage 2 1002 = "Не удалось записать данные для строк 2–1002" := by
  refine ⟨exhausted_first_batch [sampleRow] (by decide), rfl,
    exhausted_first_batch (List.replicate 1000 sampleRow) ?_, ?_, ?_⟩
  · rw [List.length_replicate]
    decide
  · rw [batch_length, List.length_replicate]
    decide
  · decide

/-! ## The capacity check -/

/-- Claim C4 fails on the code. The sheet has 3 grid rows, all populated, and
one row is to be written: `rowsNeeded` is 2, no row is added and the capacity
stays 3, while the batch is written at row 4. -/
theorem capacity_check_misses_existing_rows :
    fullSheetDest.reads fullSheet ∧
    (writeToGoogleSheet fullSheetDest [sampleRow]).trace =
      [.cursor 4, .update 4 [sampleRow.toCells] none, .cursor 1004] ∧
    (fullSheet.apply (writeToGoogleSheet fullSheetDest [sampleRow]).trace).rowCount = 3 ∧
    (3 : Nat) < 4 := by
  have ht : (writeToGoogleSheet fullSheetDest [sampleRow]).trace =
      [.cursor 4, .update 4 [sampleRow.toCells] none, .cursor 1004] := by
    rw [writeToGoogleSheet_eq fullSheetDest [sampleRow] 3 fullSheet.values rfl
        (fun _ => rfl) rfl (fun _ => rfl),
      batchLoop_all_commit fullSheetDest [sampleRow] (fun _ => 0) _
        (fun k _ => commitsAfter_zero _ k rfl)]
    rfl
  refine ⟨⟨rfl, rfl⟩, ht, ?_, by decide⟩
  rw [ht]
  rfl

/-! ## Header placement -/

theorem headerWrites_append (a b : List Event) :
    headerWrites (a ++ b) = headerWrites a + headerWrites b := by
  unfold headerWrites
  rw [updates_append, List.filter_append, List.length_append]

theorem headerWrites_eq_zero (t : List Event) (h : ∀ u, u ∈ updates t → 2 ≤ u.1) :
    headerWrites t = 0 := by
  unfold headerWrites
  rw [List.length_eq_zero, List.filter_eq_nil_iff]
  intro u hu
  have := h u hu
  simp only [decide_eq_true_eq, not_and]
  intro h1
  omega

theorem updates_setupEvents (currentRows : Nat) (rows : List (List Value)) (n : Nat) :
    updates (setupEvents currentRows rows n) =
      if rows.length = 0 then [(1, [header], none)] else [] := by
  unfold setupEvents
  by_cases hc : n + 1 > currentRows <;> by_cases h0 : rows.length = 0 <;>
    simp [hc, h0, updates]

theorem writeBlock_length_ge (values : List (List Value)) (k : Nat)
    (block : List (List Value)) :
    values.length ≤ (writeBlock values k block).length ∧
    k + block.length ≤ (writeBlock values k block).length := by
  unfold writeBlock
  simp only [List.length_append, List.length_take, List.length_replicate, List.length_drop]
  omega

theorem Sheet.step_values_length (s : Sheet) (e : Event) :
    s.values.length ≤ (s.step e).values.length := by
  cases e with
  | appendDimension length answer => cases answer <;> simp [Sheet.step]
  | update row values answer =>
    cases answer with
    | none => exact (writeBlock_length_ge s.values (row - 1) values).1
    | some error => simp [Sheet.step]
  | delay ms => simp [Sheet.step]
  | cursor startRow => simp [Sheet.step]

theorem Sheet.apply_values_length (trace : List Event) :
    ∀ s : Sheet, s.values.length ≤ (s.apply trace).values.length := by
  induction trace with
  | nil => intro s; exact Nat.le_refl _
  | cons e trace ih =>
    intro s
    exact Nat.le_trans (Sheet.step_values_length s e) (ih (s.step e))

/-- After a trace that holds an accepted write of the header at row 1 the
sheet has a populated row. -/
theorem Sheet.apply_header (s : Sheet) (a b : List Event) :
    1 ≤ (s.apply (a ++ Event.update 1 [header] none :: b)).values.length := by
  unfold Sheet.apply
  rw [List.foldl_append, List.foldl_cons]
  refine Nat.le_trans ?_ (Sheet.apply_values_length b _)
  exact (writeBlock_length_ge _ (1 - 1) [header]).2

theorem updates_writeToGoogleSheet (d : Dest) (dataToWrite : List ExportRow)
    (currentRows : Nat) (rows : List (List Value)) (hsheet : d.sheetInfo = .ok currentRows)
    (happend : ∀ n, d.appendDimension n = none) (hrows : d.getRows = .ok rows)
    (hheader : rows.length = 0 → d.headerUpdate = none) :
    updates (writeToGoogleSheet d dataToWrite).trace =
      (if rows.length = 0 then [(1, [header], none)] else []) ++
        updates (batchLoop d dataToWrite 0 (initialCursor rows)).trace := by
  rw [writeToGoogleSheet_eq d dataToWrite currentRows rows hsheet happend hrows hheader]
  simp only [Run.after]
  rw [updates_append, updates_setupEvents]

/-- Claim C5. Let the set-up requests be accepted. The header is written at
row 1 if and only if the destination has no populated row. In that case the
first write of the run is the header at row 1, the batch loop is entered with
the cursor 2 and every other write targets a row from 2 on, so the header is
written exactly once. When the destination has r > 0 populated rows the writes
are those of the batch loop entered with the cursor r + 1, none is a write of
the header and none targets a row up to r. Running the writer on an empty
destination and then on the resulting sheet writes the header once in total. -/
theorem header_placement (d : Dest) (dataToWrite : List ExportRow) (currentRows : Nat)
    (rows : List (List Value)) (hsheet : d.sheetInfo = .ok currentRows)
    (happend : ∀ n, d.appendDimension n = none) (hrows : d.getRows = .ok rows)
    (hheader : rows.length = 0 → d.headerUpdate = none) :
    ((∃ answer, (1, [header], answer) ∈ updates (writeToGoogleSheet d dataToWrite).trace) ↔
      rows.length = 0) ∧
    (rows.length = 0 →
      updates (writeToGoogleSheet d dataToWrite).trace =
        (1, [header], none) :: updates (batchLoop d dataToWrite 0 2).trace ∧
      (∀ u, u ∈ updates (batchLoop d dataToWrite 0 2).trace → 2 ≤ u.1) ∧
      headerWrites (writeToGoogleSheet d dataToWrite).trace = 1) ∧
    (0 < rows.length →
      updates (writeToGoogleSheet d dataToWrite).trace =
        updates (batchLoop d dataToWrite 0 (rows.length + 1)).trace ∧
      (∀ u, u ∈ updates (writeToGoogleSheet d dataToWrite).trace → rows.length < u.1) ∧
      headerWrites (writeToGoogleSheet d dataToWrite).trace = 0) ∧
    (rows.length = 0 → ∀ (d2 : Dest) (data2 : List ExportRow),
      d2.reads ((Sheet.mk currentRows rows).apply (writeToGoogleSheet d dataToWrite).trace) →
      (∀ n, d2.appendDimension n = none) →
      headerWrites ((writeToGoogleSheet d dataToWrite).trace ++
        (writeToGoogleSheet d2 data2).trace) = 1) := by
  have hup := updates_writeToGoogleSheet d dataToWrite currentRows rows hsheet happend hrows
    hheader
  have hempty : rows.length = 0 →
      updates (writeToGoogleSheet d dataToWrite).trace =
        (1, [header], none) :: updates (batchLoop d dataToWrite 0 2).trace ∧
      (∀ u, u ∈ updates (batchLoop d dataToWrite 0 2).trace → 2 ≤ u.1) ∧
      headerWrites (writeToGoogleSheet d dataToWrite).trace = 1 := by
    intro h0
    have hi : initialCursor rows = 2 := by simp [initialCursor, h0]
    have hrows2 := (batchLoop_shape d dataToWrite _ 0 2 (Nat.le_refl _)).2.2
    rw [hi] at hup
    simp only [h0, if_true, List.singleton_append] at hup
    refine ⟨hup, hrows2, ?_⟩
    have hz := headerWrites_eq_zero _ hrows2
    unfold headerWrites at hz ⊢
    rw [hup, List.filter_cons_of_pos (by simp), List.length_cons, hz]
  have hfull : 0 < rows.length →
      updates (writeToGoogleSheet d dataToWrite).trace =
        updates (batchLoop d dataToWrite 0 (rows.length + 1)).trace ∧
      (∀ u, u ∈ updates (writeToGoogleSheet d dataToWrite).trace → rows.length < u.1) ∧
      headerWrites (writeToGoogleSheet d dataToWrite).trace = 0 := by
    intro hpos
    have h0 : rows.length ≠ 0 := by omega
    have hi : initialCursor rows = rows.length + 1 := by simp [initialCursor, h0]
    have hrowsr := (batchLoop_shape d dataToWrite _ 0 (rows.length + 1) (Nat.le_refl _)).2.2
    rw [hi] at hup
    simp only [h0, if_false, List.nil_append] at hup
    refine ⟨hup, ?_, ?_⟩
    · intro u hu
      rw [hup] at hu
      exact hrowsr u hu
    · unfold headerWrites
      rw [hup]
      apply headerWrites_eq_zero
      intro u hu
      have := hrowsr u hu
      omega
  refine ⟨?_, hempty, hfull, ?_⟩
  · constructor
    · rintro ⟨answer, hmem⟩
      by_contra h0
      have := (hfull (by omega)).2.1 _ hmem
      simp only at this
      omega
    · intro h0
      refine ⟨none, ?_⟩
      rw [(hempty h0).1]
      exact List.mem_cons_self _ _
  · intro h0 d2 data2 hreads happend2
    obtain ⟨hs2, hr2⟩ := hreads
    have hlen : 1 ≤ ((Sheet.mk currentRows rows).apply
        (writeToGoogleSheet d dataToWrite).trace).values.length := by
      rw [writeToGoogleSheet_eq d dataToWrite currentRows rows hsheet happend hrows hheader]
      simp only [Run.after, setupEvents, h0, if_true]
      have hsplit : ∀ cap : List Event,
          (cap ++ [Event.cursor (0 + 1), Event.update 1 [header] none, Event.cursor 2]) ++
            (batchLoop d dataToWrite 0 (initialCursor rows)).trace =
          (cap ++ [Event.cursor (0 + 1)]) ++ Event.update 1 [header] none ::
            ([Event.cursor 2] ++ (batchLoop d dataToWrite 0 (initialCursor rows)).trace) := by
        intro cap
        simp
      rw [hsplit]
      exact Sheet.apply_header _ _ _
    have h2 := updates_writeToGoogleSheet d2 data2 _ _ hs2 happend2 hr2
      (fun h => by omega)
    have hne : ((Sheet.mk currentRows rows).apply
        (writeToGoogleSheet d dataToWrite).trace).values.length ≠ 0 := by omega
    have hi2 : initialCursor ((Sheet.mk currentRows rows).apply
        (writeToGoogleSheet d dataToWrite).trace).values =
        ((Sheet.mk currentRows rows).apply
          (writeToGoogleSheet d dataToWrite).trace).values.length + 1 := by
      simp [initialCursor, hne]
    rw [hi2] at h2
    simp only [hne, if_false, List.nil_append] at h2
    have hz : headerWrites (writeToGoogleSheet d2 data2).trace = 0 := by
      unfold headerWrites
      rw [h2]
      apply headerWrites_eq_zero
      intro u hu
      have h3 := (batchLoop_shape d2 data2 _ 0 _ (Nat.le_refl _)).2.2 u hu
      omega
    rw [headerWrites_append, (hempty h0).2.2, hz]

/-! ## The theorems at concrete inputs -/

/-- Claim C7 at a source of one record: two calls, at the offsets 0 and 1000;
the second returns the empty page; one row is accumulated. -/
theorem main_pagination_witness :
    ∃ data, main (sliceApi [sampleClient] []) 2 =
        some ⟨(List.range (pageCount [sampleClient].length + 1)).map (fun i => limit * i),
          .writer data⟩ ∧
      ((List.range (pageCount [sampleClient].length + 1)).map (fun i => limit * i)).length =
        ([sampleClient].length + limit - 1) / limit + 1 ∧
      (sliceApi [sampleClient] []).clientsList limit (limit * pageCount [sampleClient].length) =
        .page [] ∧
      data.length = [sampleClient].length ∧
      data.map ExportRow.client = [sampleClient] :=
  main_pagination [sampleClient] (sliceApi [sampleClient] []) 2 (fun _ => rfl)
    (fun _ _ => ⟨[], rfl⟩) (by decide)

/-- Claim C1 at 2500 rows on an empty sheet, every batch rate-limited twice
before it is accepted: the header at row 1, then the three batches at the rows
2, 1002 and 2002 with 1000, 1000 and 500 rows. -/
theorem writer_commits_batches_witness :
    committed (writeToGoogleSheet retryingDest (List.replicate 2500 sampleRow)).trace =
      [(1, [header]), (2, batch (List.replicate 2500 sampleRow) 0),
       (1002, batch (List.replicate 2500 sampleRow) 1),
       (2002, batch (List.replicate 2500 sampleRow) 2)] ∧
    (batch (List.replicate 2500 sampleRow) 0).length = 1000 ∧
    (batch (List.replicate 2500 sampleRow) 1).length = 1000 ∧
    (batch (List.replicate 2500 sampleRow) 2).length = 500 :=
  (writer_commits_batches retryingDest (List.replicate 2500 sampleRow) 1000 [] (fun _ => 2)
    rfl (fun _ => rfl) rfl (fun _ => rfl)
    (fun _ _ => ⟨(by decide : 2 < 5), fun _ ha => ⟨⟨.num 429⟩, if_pos ha, rfl⟩, rfl⟩)).2.2.2.2.2
    (List.length_replicate _ _) rfl

/-- Claim C2 at 1500 rows on an empty sheet, the first batch accepted and the
second always rate-limited: the writer throws the error of line 176 for the
cursor 1002, and only the header and the first batch are committed. -/
theorem writer_retry_bound_witness :
    (writeToGoogleSheet stallingDest (List.replicate 1500 sampleRow)).result =
      .error (.unwritten (initialCursor [] + 1000 * 1) (initialCursor [] + 1000 * 1 + BATCH_SIZE)) ∧
    committed (writeToGoogleSheet stallingDest (List.replicate 1500 sampleRow)).trace =
      headerCommit [] ++ (List.range 1).map
        (fun j => (initialCursor [] + 1000 * j, batch (List.replicate 1500 sampleRow) j)) :=
  (writer_retry_bound stallingDest (List.replicate 1500 sampleRow) 1000 [] (fun _ => 0) 1
    rfl (fun _ => rfl) rfl (fun _ => rfl)
    (by rw [List.length_replicate]; decide)
    (fun j hj => ⟨(by decide : 0 < 5), fun _ ha => absurd ha (Nat.not_lt_zero _),
      by
        have hj0 : j = 0 := by omega
        subst hj0
        rfl⟩)
    (fun _ => ⟨⟨.num 429⟩, rfl, rfl⟩)).2.2.2

/-- Claim C8 at one row on an empty sheet whose service rejects the write
with the code 500: the writer throws that error after a single attempt. -/
theorem writer_fails_fast_witness :
    (writeToGoogleSheet rejectingDest [sampleRow]).result = .error (.api ⟨.num 500⟩) ∧
    (writeToGoogleSheet rejectingDest [sampleRow]).trace =
      setupEvents 1000 [] [sampleRow].length ++
        commitEvents rejectingDest [sampleRow] (fun _ => 0) (initialCursor []) 0 ++
        limitedAttempts (rejectingDest.batchUpdate 0) (initialCursor [] + 1000 * 0)
          (batch [sampleRow] 0) 0 ++
        [Event.update (initialCursor [] + 1000 * 0) (batch [sampleRow] 0) (some ⟨.num 500⟩)] :=
  ⟨(writer_fails_fast rejectingDest [sampleRow] 1000 [] (fun _ => 0) 0 0 ⟨.num 500⟩
      rfl (fun _ => rfl) rfl (fun _ => rfl) (by decide)
      (fun _ hj => absurd hj (Nat.not_lt_zero _)) (by decide)
      (fun _ ha => absurd ha (Nat.not_lt_zero _)) rfl (by decide)).1,
   (writer_fails_fast rejectingDest [sampleRow] 1000 [] (fun _ => 0) 0 0 ⟨.num 500⟩
      rfl (fun _ => rfl) rfl (fun _ => rfl) (by decide)
      (fun _ hj => absurd hj (Nat.not_lt_zero _)) (by decide)
      (fun _ ha => absurd ha (Nat.not_lt_zero _)) rfl (by decide)).2.1⟩

/-- Claim C5 at one row written to an empty sheet and then written again to
the resulting sheet: one write of the header in the first run, one in total. -/
theorem header_placement_witness :
    headerWrites (writeToGoogleSheet (emptySheetDest (fun _ _ => none)) [sampleRow]).trace = 1 ∧
    headerWrites ((writeToGoogleSheet (emptySheetDest (fun _ _ => none)) [sampleRow]).trace ++
      (writeToGoogleSheet secondRunDest [sampleRow]).trace) = 1 :=
  ⟨((header_placement (emptySheetDest (fun _ _ => none)) [sampleRow] 1000 [] rfl
      (fun _ => rfl) rfl (fun _ => rfl)).2.1 rfl).2.2,
   (header_placement (emptySheetDest (fun _ _ => none)) [sampleRow] 1000 [] rfl
      (fun _ => rfl) rfl (fun _ => rfl)).2.2.2 rfl secondRunDest [sampleRow] ⟨rfl, rfl⟩
      (fun _ => rfl)⟩

end DirectContract
